import Mathlib

/-!
# OpenXLSX relationship registry (`XLRelationships.cpp`)

A shallow embedding of `XLRelationshipItem` and `XLRelationships` and the
properties of the registry: id allocation, type/URI resolution, lookup,
add and delete.

Conventions of the embedding:

* a C++ member function that mutates `*this` and may throw is a function from
  the state to the pair (state after the call, `Except` result): a `throw`
  returns the state as it is at the point of the throw;
* `std::map<std::string, unique_ptr<XLRelationshipItem>>` is an association
  list kept in key order by `insert_or_assign`;
* a pointer to an XML node is the node's handle, a natural number that the
  document gives out when the node is created;
* a `const std::string &` parameter that the function reads again after it has
  changed the registry is a `StringRef`, read in the state at each point of use.
-/

namespace OpenXLSX

/-! ## Relationship types -/

/-- Modelled from the spec: the enumeration `XLRelationshipType` is declared in the
header `XLRelationships.h`, which is not among the sources. The spec gives it as a
closed enumeration of 21 known semantics plus the `Unknown` sentinel; the 22 names
are those the branches of `AddRelationship` and `ParseXMLData` use. -/
inductive XLRelationshipType where
  | CoreProperties
  | ExtendedProperties
  | CustomProperties
  | Workbook
  | Worksheet
  | ChartSheet
  | CalculationChain
  | ExternalLink
  | ExternalLinkPath
  | Theme
  | Styles
  | Chart
  | ChartStyle
  | ChartColorStyle
  | Image
  | Drawing
  | VMLDrawing
  | SharedStrings
  | PrinterSettings
  | VBAProject
  | ControlProperties
  | Unknown
  deriving DecidableEq, Repr, Inhabited

/-- The 21 known relationship types, in the order of the branches of
`AddRelationship` (lines 161-202). -/
def knownTypes : List XLRelationshipType :=
  [.ExtendedProperties, .CustomProperties, .Workbook, .CoreProperties, .Worksheet,
   .Styles, .SharedStrings, .CalculationChain, .VBAProject, .ExternalLink, .Theme,
   .ChartSheet, .ChartStyle, .ChartColorStyle, .Drawing, .Image, .Chart,
   .ExternalLinkPath, .PrinterSettings, .VMLDrawing, .ControlProperties]

/-! ## Errors -/

/-- The exceptions the registry throws. `out_of_range` is what `std::map::at` throws
for a missing key; `null_dereference` stands for reading `->value()` of an attribute
that the node does not have, `dangling_reference` for reading a string through a
reference to a member of an entry that is no longer in the index. -/
inductive XLError where
  | runtime_error (what : String)
  | range_error (what : String)
  | out_of_range
  | null_dereference
  | dangling_reference
  deriving DecidableEq, Repr

/-- The spec's name for the failure of `AddRelationship` on an unrecognised type. -/
def UnrecognizedType : XLError := .runtime_error "RelationshipType not recognized!"

/-- The spec's name for the failure of a lookup or delete by an absent id. -/
def IdNotFound : XLError := .out_of_range

/-- The spec's name for the failure of a lookup by an absent target. -/
def TargetNotFound : XLError := .range_error "Relationship with Target does not exist"

/-! ## Decimal rendering -/

/-- The call `std::to_string` on an unsigned count: its decimal digits, no sign, no
leading zero, and "0" for zero. -/
def to_string (n : Nat) : String := Nat.repr n

/-! ## The type resolver -/

/-- The branch chain at the head of `AddRelationship` (lines 159-203): the canonical
URI of a type, or the `runtime_error` of the last branch. -/
def ToUri (type : XLRelationshipType) : Except XLError String :=
  if type = XLRelationshipType.ExtendedProperties then
    .ok "http://schemas.openxmlformats.org/officeDocument/2006/relationships/extended-properties"
  else if type = XLRelationshipType.CustomProperties then
    .ok "http://schemas.openxmlformats.org/officeDocument/2006/relationships/custom-properties"
  else if type = XLRelationshipType.Workbook then
    .ok "http://schemas.openxmlformats.org/officeDocument/2006/relationships/officeDocument"
  else if type = XLRelationshipType.CoreProperties then
    .ok "http://schemas.openxmlformats.org/package/2006/relationships/metadata/core-properties"
  else if type = XLRelationshipType.Worksheet then
    .ok "http://schemas.openxmlformats.org/officeDocument/2006/relationships/worksheet"
  else if type = XLRelationshipType.Styles then
    .ok "http://schemas.openxmlformats.org/officeDocument/2006/relationships/styles"
  else if type = XLRelationshipType.SharedStrings then
    .ok "http://schemas.openxmlformats.org/officeDocument/2006/relationships/sharedStrings"
  else if type = XLRelationshipType.CalculationChain then
    .ok "http://schemas.openxmlformats.org/officeDocument/2006/relationships/calcChain"
  else if type = XLRelationshipType.VBAProject then
    .ok "http://schemas.microsoft.com/office/2006/relationships/vbaProject"
  else if type = XLRelationshipType.ExternalLink then
    .ok "http://schemas.openxmlformats.org/officeDocument/2006/relationships/externalLink"
  else if type = XLRelationshipType.Theme then
    .ok "http://schemas.openxmlformats.org/officeDocument/2006/relationships/theme"
  else if type = XLRelationshipType.ChartSheet then
    .ok "http://schemas.openxmlformats.org/officeDocument/2006/relationships/chartsheet"
  else if type = XLRelationshipType.ChartStyle then
    .ok "http://schemas.microsoft.com/office/2011/relationships/chartStyle"
  else if type = XLRelationshipType.ChartColorStyle then
    .ok "http://schemas.microsoft.com/office/2011/relationships/chartColorStyle"
  else if type = XLRelationshipType.Drawing then
    .ok "http://schemas.openxmlformats.org/officeDocument/2006/relationships/drawing"
  else if type = XLRelationshipType.Image then
    .ok "http://schemas.openxmlformats.org/officeDocument/2006/relationships/image"
  else if type = XLRelationshipType.Chart then
    .ok "http://schemas.openxmlformats.org/officeDocument/2006/relationships/chart"
  else if type = XLRelationshipType.ExternalLinkPath then
    .ok "http://schemas.openxmlformats.org/officeDocument/2006/relationships/externalLinkPath"
  else if type = XLRelationshipType.PrinterSettings then
    .ok "http://schemas.openxmlformats.org/officeDocument/2006/relationships/printerSettings"
  else if type = XLRelationshipType.VMLDrawing then
    .ok "http://schemas.openxmlformats.org/officeDocument/2006/relationships/vmlDrawing"
  else if type = XLRelationshipType.ControlProperties then
    .ok "http://schemas.openxmlformats.org/officeDocument/2006/relationships/ctrlProp"
  else .error (.runtime_error "RelationshipType not recognized!")

/-- The branch chain inside the loop of `ParseXMLData` (lines 246-292): the type of
a URI, `Unknown` when no branch matches. -/
def FromUri (typeString : String) : XLRelationshipType :=
  if typeString = "http://schemas.openxmlformats.org/officeDocument/2006/relationships/extended-properties" then
    .ExtendedProperties
  else if typeString = "http://schemas.openxmlformats.org/officeDocument/2006/relationships/custom-properties" then
    .CustomProperties
  else if typeString = "http://schemas.openxmlformats.org/officeDocument/2006/relationships/officeDocument" then
    .Workbook
  else if typeString = "http://schemas.openxmlformats.org/package/2006/relationships/metadata/core-properties" then
    .CoreProperties
  else if typeString = "http://schemas.openxmlformats.org/officeDocument/2006/relationships/worksheet" then
    .Worksheet
  else if typeString = "http://schemas.openxmlformats.org/officeDocument/2006/relationships/styles" then
    .Styles
  else if typeString = "http://schemas.openxmlformats.org/officeDocument/2006/relationships/sharedStrings" then
    .SharedStrings
  else if typeString = "http://schemas.openxmlformats.org/officeDocument/2006/relationships/calcChain" then
    .CalculationChain
  else if typeString = "http://schemas.microsoft.com/office/2006/relationships/vbaProject" then
    .VBAProject
  else if typeString = "http://schemas.openxmlformats.org/officeDocument/2006/relationships/externalLink" then
    .ExternalLink
  else if typeString = "http://schemas.openxmlformats.org/officeDocument/2006/relationships/theme" then
    .Theme
  else if typeString = "http://schemas.openxmlformats.org/officeDocument/2006/relationships/chartsheet" then
    .ChartSheet
  else if typeString = "http://schemas.microsoft.com/office/2011/relationships/chartStyle" then
    .ChartStyle
  else if typeString = "http://schemas.microsoft.com/office/2011/relationships/chartColorStyle" then
    .ChartColorStyle
  else if typeString = "http://schemas.openxmlformats.org/officeDocument/2006/relationships/drawing" then
    .Drawing
  else if typeString = "http://schemas.openxmlformats.org/officeDocument/2006/relationships/image" then
    .Image
  else if typeString = "http://schemas.openxmlformats.org/officeDocument/2006/relationships/chart" then
    .Chart
  else if typeString = "http://schemas.openxmlformats.org/officeDocument/2006/relationships/externalLinkPath" then
    .ExternalLinkPath
  else if typeString = "http://schemas.openxmlformats.org/officeDocument/2006/relationships/printerSettings" then
    .PrinterSettings
  else if typeString = "http://schemas.openxmlformats.org/officeDocument/2006/relationships/vmlDrawing" then
    .VMLDrawing
  else if typeString = "http://schemas.openxmlformats.org/officeDocument/2006/relationships/ctrlProp" then
    .ControlProperties
  else
    .Unknown

/-! ## The XML tree -/

/-- Modelled from the spec: the XML wrapper (`XMLAttribute`, `XMLNode`, `XMLDocument`)
is an external collaborator, absent from the sources. An attribute is a name and a
value. -/
structure XMLAttribute where
  name : String
  value : String
  deriving DecidableEq, Repr

/-- Modelled from the spec: a node of the backing tree (the XML wrapper is absent from
the sources). `handle` is the node's identity, what a `XMLNode*` points at; the
attributes are in the order they were appended. -/
structure XMLNode where
  handle : Nat
  name : String
  attributes : List XMLAttribute
  deriving DecidableEq, Repr

/-- Modelled from the spec: `node->attribute(name)` of the absent XML wrapper, the
first attribute of that name, `none` for the null pointer. -/
def XMLNode.attribute (self : XMLNode) (name : String) : Option XMLAttribute :=
  self.attributes.find? (fun a => a.name = name)

/-- Modelled from the spec: `node->appendAttribute(a)` of the absent XML wrapper. -/
def XMLNode.appendAttribute (self : XMLNode) (a : XMLAttribute) : XMLNode :=
  { self with attributes := self.attributes ++ [a] }

/-- Modelled from the spec: the backing tree (the XML wrapper is absent from the
sources): the children of the root in document order, and the handle that the next
created node gets. -/
structure XMLDocument where
  children : List XMLNode
  nextHandle : Nat
  deriving DecidableEq, Repr

/-- Modelled from the spec: `XmlDocument()->createNode(name)` of the absent XML
wrapper: a new node with no attributes, not yet attached to the tree. -/
def XMLDocument.createNode (self : XMLDocument) (name : String) : XMLDocument × XMLNode :=
  ({ self with nextHandle := self.nextHandle + 1 },
   { handle := self.nextHandle, name := name, attributes := [] })

/-- Modelled from the spec: `XmlDocument()->createAttribute(name, value)` of the
absent XML wrapper. -/
def XMLDocument.createAttribute (_self : XMLDocument) (name value : String) : XMLAttribute :=
  { name := name, value := value }

/-- Modelled from the spec: `rootNode()->appendNode(node)` of the absent XML wrapper:
the node becomes the last child of the root. -/
def XMLDocument.appendNode (self : XMLDocument) (node : XMLNode) : XMLDocument :=
  { self with children := self.children ++ [node] }

/-- Modelled from the spec: `node->deleteNode()` of the absent XML wrapper: the node
with this handle leaves the tree. -/
def XMLDocument.deleteNode (self : XMLDocument) (handle : Nat) : XMLDocument :=
  { self with children := self.children.filter (fun n => n.handle ≠ handle) }

/-! ## `XLRelationshipItem` -/

/-- The members of `XLRelationshipItem`; `m_relationshipNode` is `none` for
`nullptr`. -/
structure XLRelationshipItem where
  m_relationshipNode : Option Nat
  m_relationshipType : XLRelationshipType
  m_relationshipTarget : String
  m_relationshipId : String
  deriving DecidableEq, Repr

namespace XLRelationshipItem

/-- The constructor (lines 14-24). -/
def new (node : XMLNode) (type : XLRelationshipType) (target id : String) :
    XLRelationshipItem :=
  { m_relationshipNode := some node.handle
    m_relationshipType := type
    m_relationshipTarget := target
    m_relationshipId := id }

/-- `Type()` (lines 29-32); `Type` is a reserved word, hence the underscore. -/
def Type_ (self : XLRelationshipItem) : XLRelationshipType := self.m_relationshipType

/-- `Target()` (lines 37-40). -/
def Target (self : XLRelationshipItem) : String := self.m_relationshipTarget

/-- `Id()` (lines 45-48). -/
def Id (self : XLRelationshipItem) : String := self.m_relationshipId

/-- `Delete()` (lines 54-67): deletes the bound node if there is one, then resets the
members. -/
def Delete (self : XLRelationshipItem) (doc : XMLDocument) :
    XLRelationshipItem × XMLDocument :=
  let doc :=
    match self.m_relationshipNode with
    | some h => doc.deleteNode h
    | none => doc
  ({ m_relationshipNode := none
     m_relationshipType := XLRelationshipType.Unknown
     m_relationshipTarget := ""
     m_relationshipId := "" }, doc)

end XLRelationshipItem

/-! ## The index: `std::map<std::string, unique_ptr<XLRelationshipItem>>` -/

/-- The index as the list of its (key, item) pairs in iteration order. -/
abbrev StdMap := List (String × XLRelationshipItem)

namespace StdMap

/-- The order of `std::string` keys: lexicographic on the characters (for UTF-8 text
the same as on the bytes). -/
def keyLt (a b : String) : Bool := decide (a.toList < b.toList)

/-- `map.at(key)`: the item under the key, `std::out_of_range` when there is none. -/
def at_ (key : String) : StdMap → Except XLError XLRelationshipItem
  | [] => .error .out_of_range
  | p :: rest => if p.1 = key then .ok p.2 else at_ key rest

/-- `map.insert_or_assign(key, item)`: a new pair at its place in key order, or the
item of the existing pair replaced. -/
def insert_or_assign (key : String) (item : XLRelationshipItem) : StdMap → StdMap
  | [] => [(key, item)]
  | p :: rest =>
    if p.1 = key then (key, item) :: rest
    else if keyLt key p.1 then (key, item) :: p :: rest
    else p :: insert_or_assign key item rest

/-- Assignment through the reference that `at(key)` returns: the item under the key
is replaced in place. -/
def assign (key : String) (item : XLRelationshipItem) : StdMap → StdMap
  | [] => []
  | p :: rest => if p.1 = key then (p.1, item) :: rest else p :: assign key item rest

/-- `map.erase(key)`. -/
def erase (key : String) (m : StdMap) : StdMap :=
  m.filter (fun p => p.1 ≠ key)

/-- `map.size()`. -/
def size (m : StdMap) : Nat := m.length

/-- The keys of the map, in iteration order. -/
def keys (m : StdMap) : List String := m.map Prod.fst

end StdMap

/-- What a caller binds to a parameter of type `const std::string &`: a string of its
own, or the member `m_relationshipId` (resp. `m_relationshipTarget`) of the entry stored
under a key of the index, which is what `Id()` (line 45) and `Target()` (line 37)
return a reference to. A reference to a string that the XML tree owns is not covered:
the XML wrapper is absent from the sources. -/
inductive StringRef where
  | value (s : String)
  | idOf (key : String)
  | targetOf (key : String)
  deriving DecidableEq, Repr

/-- The string a reference refers to at present; nothing when the entry whose member
it names is not in the index. -/
def StringRef.read (m : StdMap) : StringRef → Option String
  | .value s => some s
  | .idOf key =>
    match StdMap.at_ key m with
    | .ok entry => some entry.Id
    | .error _ => none
  | .targetOf key =>
    match StdMap.at_ key m with
    | .ok entry => some entry.Target
    | .error _ => none

/-! ## `XLRelationships` -/

/-- The state of a `XLRelationships` object: its own members `m_relationships` and
`m_relationshipCount`, and what it inherits. -/
structure XLRelationships where
  /-- Modelled from the spec: the backing tree behind `XmlDocument()`, held by the
  absent base class `XLAbstractXMLFile`. -/
  m_xmlDocument : XMLDocument
  m_relationships : StdMap
  /-- Modelled from the spec: the allocation counter. Its declared type is in the
  absent header `XLRelationships.h`; the spec gives it no width, so it is a natural
  number here. -/
  m_relationshipCount : Nat
  /-- Modelled from the spec: the persisted form that `SaveXMLData` of the absent base
  class `XLAbstractXMLFile` writes, the nodes of the tree at the last save. -/
  m_savedData : List XMLNode
  /-- Modelled from the spec: the modified mark that `SetModified` of the absent base
  classes sets. -/
  m_isModified : Bool
  deriving DecidableEq, Repr

namespace XLRelationships

/-- `Relationships()` (lines 127-130). -/
def Relationships (self : XLRelationships) : StdMap := self.m_relationships

/-- Modelled from the spec: `SaveXMLData()` of the absent base class
`XLAbstractXMLFile`: the backing tree is serialized to storage. -/
def SaveXMLData (self : XLRelationships) : XLRelationships :=
  { self with m_savedData := self.m_xmlDocument.children }

/-- Modelled from the spec: `SetModified()` of the absent base classes: the owning
document is marked modified. -/
def SetModified (self : XLRelationships) : XLRelationships :=
  { self with m_isModified := true }

/-- `RelationshipByID(id)` (lines 85-96). -/
def RelationshipByID (self : XLRelationships) (id : String) :
    Except XLError XLRelationshipItem :=
  StdMap.at_ id self.Relationships

/-- The loop of `RelationshipByTarget` (lines 104-108) over the pairs still to visit. -/
def RelationshipByTarget.loop (target : String) : StdMap → Except XLError XLRelationshipItem
  | [] => .error (.range_error "Relationship with Target does not exist")
  | item :: rest =>
    if item.2.Target = target then .ok item.2 else RelationshipByTarget.loop target rest

/-- `RelationshipByTarget(target)` (lines 101-122). -/
def RelationshipByTarget (self : XLRelationships) (target : String) :
    Except XLError XLRelationshipItem :=
  RelationshipByTarget.loop target self.Relationships

/-- `DeleteRelationship(id)` (lines 144-151). The parameter is a
`const std::string &`: line 147 reads the string to find the entry and resets the entry
in place, and line 148 reads the string again, after the reset, for the key to erase. -/
def DeleteRelationship (self : XLRelationships) (id : StringRef) :
    XLRelationships × Except XLError Unit :=
  match id.read self.m_relationships with
  | none => (self, .error .dangling_reference)
  | some key =>
    match StdMap.at_ key self.Relationships with
    | .error e => (self, .error e)
    | .ok item =>
      let (item, doc) := item.Delete self.m_xmlDocument
      let self := { self with
        m_xmlDocument := doc
        m_relationships := StdMap.assign key item self.m_relationships }
      match id.read self.m_relationships with
      | none => (self, .error .dangling_reference)
      | some key =>
        let self := { self with m_relationships := StdMap.erase key self.m_relationships }
        let self := self.SaveXMLData
        let self := self.SetModified
        (self, .ok ())

/-- `AddRelationship(type, target)` (lines 157-234). -/
def AddRelationship (self : XLRelationships) (type : XLRelationshipType) (target : String) :
    XLRelationships × Except XLError XLRelationshipItem :=
  match ToUri type with
  | .error e => (self, .error e)
  | .ok typeString =>
    let self := { self with m_relationshipCount := self.m_relationshipCount + 1 }
    let (doc, node) := self.m_xmlDocument.createNode "Relationship"
    let Id := doc.createAttribute "Id" ("rId" ++ to_string self.m_relationshipCount)
    let Type_ := doc.createAttribute "Type" typeString
    let Target := doc.createAttribute "Target" target
    let node := node.appendAttribute Id
    let node := node.appendAttribute Type_
    let node := node.appendAttribute Target
    let node :=
      if type = XLRelationshipType.ExternalLinkPath then
        node.appendAttribute (doc.createAttribute "TargetMode" "External")
      else node
    let doc := doc.appendNode node
    let rShip := XLRelationshipItem.new node type target Id.value
    let self := { self with
      m_xmlDocument := doc
      m_relationships := StdMap.insert_or_assign Id.value rShip self.m_relationships }
    let self := self.SetModified
    let self := self.SaveXMLData
    (self, .ok rShip)

/-- The loop of `ParseXMLData` (lines 244-302) over the nodes from `theNode` on. -/
def ParseXMLData.loop : List XMLNode → StdMap → StdMap × Except XLError Unit
  | [], m => (m, .ok ())
  | theNode :: siblings, m =>
    match theNode.attribute "Type", theNode.attribute "Target", theNode.attribute "Id" with
    | some Type_, some Target, some Id =>
      let type := FromUri Type_.value
      let rShip := XLRelationshipItem.new theNode type Target.value Id.value
      ParseXMLData.loop siblings (StdMap.insert_or_assign Id.value rShip m)
    | _, _, _ => (m, .error .null_dereference)

/-- `ParseXMLData()` (lines 240-307). -/
def ParseXMLData (self : XLRelationships) : XLRelationships × Except XLError Bool :=
  match ParseXMLData.loop self.m_xmlDocument.children self.m_relationships with
  | (m, .error e) => ({ self with m_relationships := m }, .error e)
  | (m, .ok ()) =>
    ({ self with m_relationships := m, m_relationshipCount := StdMap.size m }, .ok true)

/-- The constructor (lines 72-80): an empty index and a zero counter, then
`LoadXMLData`, which calls `ParseXMLData` on the tree read from the file. A
constructor that throws leaves no object. -/
def Load (tree : XMLDocument) : Except XLError XLRelationships :=
  let self : XLRelationships :=
    { m_xmlDocument := tree
      m_relationships := []
      m_relationshipCount := 0
      m_savedData := tree.children
      m_isModified := false }
  match self.ParseXMLData with
  | (_, .error e) => .error e
  | (self, .ok _) => .ok self

end XLRelationships

/-! ## Sequences of calls -/

/-- A call of one of the two mutating member functions. -/
inductive Call where
  | Add (type : XLRelationshipType) (target : String)
  | Delete (id : StringRef)
  deriving DecidableEq, Repr

/-- The registry after one call, whether the call returned or threw. -/
def step (s : XLRelationships) : Call → XLRelationships
  | .Add type target => (s.AddRelationship type target).1
  | .Delete id => (s.DeleteRelationship id).1

/-- The registry after a sequence of calls. -/
def run (s : XLRelationships) : List Call → XLRelationships
  | [] => s
  | c :: cs => run (step s c) cs

/-- The id that a call returns: that of the entry a successful `AddRelationship`
returns, nothing for a failed one or for a `DeleteRelationship`. -/
def returnedId (s : XLRelationships) : Call → Option String
  | .Add type target =>
    match (s.AddRelationship type target).2 with
    | .ok e => some e.Id
    | .error _ => none
  | .Delete _ => none

/-- The ids returned by the successful `AddRelationship` calls of a sequence, in the
order of the calls. -/
def returnedIds (s : XLRelationships) : List Call → List String
  | [] => []
  | c :: cs => (returnedId s c).toList ++ returnedIds (step s c) cs

/-! ## Auxiliary definitions for the properties -/

/-- The number a string of decimal digits stands for. -/
def decimalValue (cs : List Char) : Nat :=
  cs.foldl (fun a c => 10 * a + (c.toNat - 48)) 0

/-- The keys of the index are strictly increasing in iteration order, as in every
`std::map`. -/
def StdMap.Sorted (m : StdMap) : Prop :=
  m.Pairwise (fun p q => StdMap.keyLt p.1 q.1 = true)

/-- Every key of the index is the `Id()` of the entry stored under it. -/
def StdMap.KeysAreIds (m : StdMap) : Prop :=
  ∀ p ∈ m, p.1 = p.2.Id

/-- Every entry of the index is Live: it is bound to a node. -/
def StdMap.AllLive (m : StdMap) : Prop :=
  ∀ p ∈ m, p.2.m_relationshipNode ≠ none

/-- The invariant of the index: keys strictly increasing, every key the `Id()` of its
entry, every entry Live. -/
def XLRelationships.IndexInv (s : XLRelationships) : Prop :=
  StdMap.Sorted s.m_relationships ∧ StdMap.KeysAreIds s.m_relationships ∧
    StdMap.AllLive s.m_relationships

/-- The node that a successful `AddRelationship(ty, t)` has built when it reaches
line 223, `u` being the URI of `ty`. -/
def XLRelationships.newNode (s : XLRelationships) (ty : XLRelationshipType) (t u : String) :
    XMLNode :=
  { handle := s.m_xmlDocument.nextHandle
    name := "Relationship"
    attributes :=
      [⟨"Id", "rId" ++ to_string (s.m_relationshipCount + 1)⟩, ⟨"Type", u⟩, ⟨"Target", t⟩] ++
        (if ty = XLRelationshipType.ExternalLinkPath then [⟨"TargetMode", "External"⟩]
         else []) }

/-- The entry that a successful `AddRelationship(ty, t)` creates at line 226. -/
def XLRelationships.newItem (s : XLRelationships) (ty : XLRelationshipType) (t : String) :
    XLRelationshipItem :=
  { m_relationshipNode := some s.m_xmlDocument.nextHandle
    m_relationshipType := ty
    m_relationshipTarget := t
    m_relationshipId := "rId" ++ to_string (s.m_relationshipCount + 1) }

/-- A backing tree with two relationship nodes, the second with a URI outside the
closed table. -/
def sampleTree : XMLDocument :=
  { children :=
      [ { handle := 0, name := "Relationship",
          attributes :=
            [⟨"Id", "rId1"⟩,
             ⟨"Type", "http://schemas.openxmlformats.org/officeDocument/2006/relationships/styles"⟩,
             ⟨"Target", "styles.xml"⟩] },
        { handle := 1, name := "Relationship",
          attributes :=
            [⟨"Id", "rId2"⟩, ⟨"Type", "http://example.org/vendor"⟩,
             ⟨"Target", "vendor.xml"⟩] } ]
    nextHandle := 2 }

/-- The registry that `Load` builds from `sampleTree`. -/
def sampleRegistry : XLRelationships :=
  { m_xmlDocument := sampleTree
    m_relationships :=
      [("rId1", ⟨some 0, XLRelationshipType.Styles, "styles.xml", "rId1"⟩),
       ("rId2", ⟨some 1, XLRelationshipType.Unknown, "vendor.xml", "rId2"⟩)]
    m_relationshipCount := 2
    m_savedData := sampleTree.children
    m_isModified := false }

/-- The backing tree with no relationship node. -/
def emptyTree : XMLDocument := { children := [], nextHandle := 0 }

/-- The registry that `Load` builds from `emptyTree`. -/
def emptyRegistry : XLRelationships :=
  { m_xmlDocument := emptyTree
    m_relationships := []
    m_relationshipCount := 0
    m_savedData := []
    m_isModified := false }

/-- A node that `ParseXMLData` can read: it has the attributes Type, Target and Id. -/
def XMLNode.HasRelationshipAttributes (n : XMLNode) : Prop :=
  (n.attribute "Type").isSome ∧ (n.attribute "Target").isSome ∧ (n.attribute "Id").isSome

/-- No two nodes of the tree share a handle, and every handle in use is below the one
that the next created node gets: handles stand for addresses, and `createNode` returns
an address not in use. -/
def XMLDocument.HandlesDistinct (d : XMLDocument) : Prop :=
  (d.children.map XMLNode.handle).Nodup ∧ ∀ n ∈ d.children, n.handle < d.nextHandle

/-- The value of the Id attribute of a node, if it has one. -/
def XMLNode.idValue (n : XMLNode) : Option String :=
  (n.attribute "Id").map XMLAttribute.value

/-- A backing tree whose only node has the id "rId2". -/
def gapTree : XMLDocument :=
  { children :=
      [ { handle := 0, name := "Relationship",
          attributes :=
            [⟨"Id", "rId2"⟩,
             ⟨"Type", "http://schemas.openxmlformats.org/officeDocument/2006/relationships/styles"⟩,
             ⟨"Target", "styles.xml"⟩] } ]
    nextHandle := 1 }

/-- A backing tree with the ids "rId1" and "rId3". -/
def skipTree : XMLDocument :=
  { children :=
      [ { handle := 0, name := "Relationship",
          attributes :=
            [⟨"Id", "rId1"⟩,
             ⟨"Type", "http://schemas.openxmlformats.org/officeDocument/2006/relationships/styles"⟩,
             ⟨"Target", "styles.xml"⟩] },
        { handle := 1, name := "Relationship",
          attributes :=
            [⟨"Id", "rId3"⟩,
             ⟨"Type", "http://schemas.openxmlformats.org/officeDocument/2006/relationships/theme"⟩,
             ⟨"Target", "theme/theme1.xml"⟩] } ]
    nextHandle := 2 }

/-- The pair that the body of the loop of `ParseXMLData` (lines 246-299) inserts for a
node: the key and the entry; nothing when one of the three attributes is missing. -/
def XMLNode.relationship? (n : XMLNode) : Option (String × XLRelationshipItem) :=
  match n.attribute "Type", n.attribute "Target", n.attribute "Id" with
  | some Type_, some Target, some Id =>
    some (Id.value, XLRelationshipItem.new n (FromUri Type_.value) Target.value Id.value)
  | _, _, _ => none

/-- The index after `insert_or_assign` of each pair of a list, first to last. -/
def StdMap.insertAll (ps : List (String × XLRelationshipItem)) (m : StdMap) : StdMap :=
  ps.foldl (fun acc p => StdMap.insert_or_assign p.1 p.2 acc) m

/-- A backing tree whose two nodes both have the id "rId1". -/
def duplicateTree : XMLDocument :=
  { children :=
      [ { handle := 0, name := "Relationship",
          attributes :=
            [⟨"Id", "rId1"⟩,
             ⟨"Type", "http://schemas.openxmlformats.org/officeDocument/2006/relationships/styles"⟩,
             ⟨"Target", "styles.xml"⟩] },
        { handle := 1, name := "Relationship",
          attributes :=
            [⟨"Id", "rId1"⟩,
             ⟨"Type", "http://schemas.openxmlformats.org/officeDocument/2006/relationships/theme"⟩,
             ⟨"Target", "theme/theme1.xml"⟩] } ]
    nextHandle := 2 }

/-- The registry that `Load` builds from `duplicateTree`. -/
def duplicateRegistry : XLRelationships :=
  { m_xmlDocument := duplicateTree
    m_relationships :=
      [("rId1", ⟨some 1, XLRelationshipType.Theme, "theme/theme1.xml", "rId1"⟩)]
    m_relationshipCount := 1
    m_savedData := duplicateTree.children
    m_isModified := false }

/-- A backing tree with the ids "rId2" and "rId10", in this document order, both with
the target "shared.xml". -/
def sharedTargetTree : XMLDocument :=
  { children :=
      [ { handle := 0, name := "Relationship",
          attributes :=
            [⟨"Id", "rId2"⟩,
             ⟨"Type", "http://schemas.openxmlformats.org/officeDocument/2006/relationships/image"⟩,
             ⟨"Target", "shared.xml"⟩] },
        { handle := 1, name := "Relationship",
          attributes :=
            [⟨"Id", "rId10"⟩,
             ⟨"Type", "http://schemas.openxmlformats.org/officeDocument/2006/relationships/chart"⟩,
             ⟨"Target", "shared.xml"⟩] } ]
    nextHandle := 2 }

/-- The registry that `Load` builds from `sharedTargetTree`: "rId10" comes before
"rId2" in key order. -/
def sharedTargetRegistry : XLRelationships :=
  { m_xmlDocument := sharedTargetTree
    m_relationships :=
      [("rId10", ⟨some 1, XLRelationshipType.Chart, "shared.xml", "rId10"⟩),
       ("rId2", ⟨some 0, XLRelationshipType.Image, "shared.xml", "rId2"⟩)]
    m_relationshipCount := 2
    m_savedData := sharedTargetTree.children
    m_isModified := false }

/-- The index is bound to the tree: handles are distinct, and every pair of the index
is what `ParseXMLData` would read from some node of the tree, the node that the entry
points at. -/
def XLRelationships.Bound (s : XLRelationships) : Prop :=
  s.m_xmlDocument.HandlesDistinct ∧
  ∀ p ∈ s.m_relationships, ∃ n ∈ s.m_xmlDocument.children, n.relationship? = some p

/-- The index and the tree hold the same relationships: handles are distinct, the keys
are strictly increasing, the pairs that `ParseXMLData` reads from the nodes of the tree
are, up to order, the pairs of the index, and no key is an id that the counter has yet
to reach. -/
def XLRelationships.Synced (s : XLRelationships) : Prop :=
  s.m_xmlDocument.HandlesDistinct ∧ StdMap.Sorted s.m_relationships ∧
  (s.m_xmlDocument.children.map XMLNode.relationship?).Perm (s.m_relationships.map some) ∧
  ∀ j, s.m_relationshipCount < j → "rId" ++ to_string j ∉ StdMap.keys s.m_relationships

/-- The test that keeps the pairs whose key is not `id`. -/
def keyIsNot (id : String) : Option (String × XLRelationshipItem) → Bool
  | some p => decide (p.1 ≠ id)
  | none => true

/-- A call that passes strings of the caller's own: every `AddRelationship`, and a
`DeleteRelationship` whose argument is not a reference to a member of an entry of the
index. -/
def Call.Plain : Call → Prop
  | .Add _ _ => True
  | .Delete (.value _) => True
  | .Delete (.idOf _) => False
  | .Delete (.targetOf _) => False

/-- Whether a call is plain can be computed. -/
instance Call.decidablePlain (c : Call) : Decidable c.Plain :=
  match c with
  | .Add _ _ => isTrue trivial
  | .Delete (.value _) => isTrue trivial
  | .Delete (.idOf _) => isFalse (fun h => h)
  | .Delete (.targetOf _) => isFalse (fun h => h)

/-- Two adds on a fresh registry, then `DeleteRelationship(RelationshipByID("rId2").Id())`:
the argument is the reference that `Id()` returns, not a copy of the string. -/
def aliasedDeleteCalls : List Call :=
  [.Add .Worksheet "worksheets/sheet1.xml", .Add .Styles "styles.xml", .Delete (.idOf "rId2")]

/-- The entry that `XLRelationshipItem::Delete` leaves (lines 62-65). -/
def deletedItem : XLRelationshipItem :=
  { m_relationshipNode := none
    m_relationshipType := XLRelationshipType.Unknown
    m_relationshipTarget := ""
    m_relationshipId := "" }

/-- The part of the index invariant that every call keeps, an aliased
`DeleteRelationship` included: keys strictly increasing, and every key under which a
Live entry is stored is the `Id()` of that entry. -/
def XLRelationships.LiveInv (s : XLRelationships) : Prop :=
  StdMap.Sorted s.m_relationships ∧
  ∀ p ∈ s.m_relationships, p.2.m_relationshipNode ≠ none → p.1 = p.2.Id

/-! # Properties -/

/-! ## Decimal rendering is injective -/

theorem digitChar_toNat (d : Nat) (h : d < 10) : (Nat.digitChar d).toNat - 48 = d := by
  interval_cases d <;> rfl

theorem decimalValue_snoc (cs : List Char) (c : Char) :
    decimalValue (cs ++ [c]) = 10 * decimalValue cs + (c.toNat - 48) := by
  simp [decimalValue, List.foldl_append]

theorem toDigitsCore_decimalValue :
    ∀ (fuel n : Nat) (ds : List Char), n < fuel →
      ∃ xs, Nat.toDigitsCore 10 fuel n ds = xs ++ ds ∧ decimalValue xs = n := by
  intro fuel
  induction fuel with
  | zero => intro n ds h; omega
  | succ f ih =>
    intro n ds h
    rw [Nat.toDigitsCore]
    by_cases h0 : n / 10 = 0
    · refine ⟨[Nat.digitChar (n % 10)], by simp [h0], ?_⟩
      have hn : n < 10 := by omega
      have : decimalValue ([] ++ [Nat.digitChar (n % 10)]) = n := by
        rw [decimalValue_snoc, digitChar_toNat _ (by omega)]
        simp [decimalValue]; omega
      simpa using this
    · obtain ⟨xs, hxs, hv⟩ := ih (n / 10) (Nat.digitChar (n % 10) :: ds) (by omega)
      refine ⟨xs ++ [Nat.digitChar (n % 10)], by simp [h0, hxs], ?_⟩
      rw [decimalValue_snoc, hv, digitChar_toNat _ (by omega)]
      omega

theorem decimalValue_to_string (n : Nat) : decimalValue (to_string n).toList = n := by
  obtain ⟨xs, hxs, hv⟩ := toDigitsCore_decimalValue (n + 1) n [] (by omega)
  simp [to_string, Nat.repr, Nat.toDigits, hxs, hv, List.asString]

theorem to_string_injective : Function.Injective to_string := by
  intro a b h
  have h2 : decimalValue (to_string a).toList = decimalValue (to_string b).toList := by rw [h]
  rwa [decimalValue_to_string, decimalValue_to_string] at h2

theorem rId_injective : Function.Injective (fun n : Nat => "rId" ++ to_string n) := by
  intro a b h
  apply to_string_injective
  have h1 : "rId" ++ to_string a = "rId" ++ to_string b := h
  have h2 : ("rId" ++ to_string a).data = ("rId" ++ to_string b).data := by rw [h1]
  rw [String.data_append, String.data_append] at h2
  exact String.ext (List.append_cancel_left h2)

/-! ## The index -/

namespace StdMap

theorem keyLt_iff (a b : String) : keyLt a b = true ↔ a < b := by
  simp [keyLt, String.lt_iff_toList_lt]

theorem keyLt_trans {a b c : String} (h1 : keyLt a b = true) (h2 : keyLt b c = true) :
    keyLt a c = true := by
  rw [keyLt_iff] at *
  exact lt_trans h1 h2

theorem keyLt_ne {a b : String} (h : keyLt a b = true) : a ≠ b := by
  rw [keyLt_iff] at h
  exact ne_of_lt h

theorem keyLt_of_not {a b : String} (h1 : ¬ keyLt a b = true) (h2 : b ≠ a) :
    keyLt b a = true := by
  rw [keyLt_iff] at *
  exact lt_of_le_of_ne (not_lt.mp h1) h2

theorem at_cons_pos {k : String} {p : String × XLRelationshipItem} (h : p.1 = k)
    (rest : StdMap) : at_ k (p :: rest) = .ok p.2 := by
  rw [at_, if_pos h]

theorem at_cons_neg {k : String} {p : String × XLRelationshipItem} (h : ¬ p.1 = k)
    (rest : StdMap) : at_ k (p :: rest) = at_ k rest := by
  rw [at_, if_neg h]

theorem erase_cons_pos {k : String} {p : String × XLRelationshipItem} (h : p.1 = k)
    (rest : StdMap) : erase k (p :: rest) = erase k rest := by
  simp [erase, h]

theorem erase_cons_neg {k : String} {p : String × XLRelationshipItem} (h : ¬ p.1 = k)
    (rest : StdMap) : erase k (p :: rest) = p :: erase k rest := by
  simp [erase, h]

theorem at_insert_self (k : String) (v : XLRelationshipItem) (m : StdMap) :
    at_ k (insert_or_assign k v m) = .ok v := by
  induction m with
  | nil => simp [insert_or_assign, at_]
  | cons p rest ih =>
    unfold insert_or_assign
    by_cases h1 : p.1 = k
    · rw [if_pos h1]; exact at_cons_pos rfl rest
    · by_cases h2 : keyLt k p.1 = true
      · rw [if_neg h1, if_pos h2]; exact at_cons_pos rfl _
      · rw [if_neg h1, if_neg h2, at_cons_neg h1, ih]

theorem at_insert_of_ne {k k' : String} (h : k' ≠ k) (v : XLRelationshipItem) (m : StdMap) :
    at_ k' (insert_or_assign k v m) = at_ k' m := by
  have hk : ¬ (k, v).1 = k' := fun h3 => h h3.symm
  induction m with
  | nil => rw [insert_or_assign, at_cons_neg hk]
  | cons p rest ih =>
    unfold insert_or_assign
    by_cases h1 : p.1 = k
    · have h3 : ¬ p.1 = k' := by rw [h1]; exact h.symm
      rw [if_pos h1, at_cons_neg hk, at_cons_neg h3]
    · by_cases h2 : keyLt k p.1 = true
      · rw [if_neg h1, if_pos h2, at_cons_neg hk]
      · rw [if_neg h1, if_neg h2]
        by_cases h3 : p.1 = k'
        · rw [at_cons_pos h3, at_cons_pos h3]
        · rw [at_cons_neg h3, at_cons_neg h3, ih]

theorem at_erase_self (k : String) (m : StdMap) :
    at_ k (erase k m) = .error .out_of_range := by
  induction m with
  | nil => simp [erase, at_]
  | cons p rest ih =>
    by_cases h1 : p.1 = k
    · rw [erase_cons_pos h1, ih]
    · rw [erase_cons_neg h1, at_cons_neg h1, ih]

theorem at_erase_of_ne {k k' : String} (h : k' ≠ k) (m : StdMap) :
    at_ k' (erase k m) = at_ k' m := by
  induction m with
  | nil => simp [erase, at_]
  | cons p rest ih =>
    by_cases h1 : p.1 = k
    · have h3 : ¬ p.1 = k' := by rw [h1]; exact h.symm
      rw [erase_cons_pos h1, at_cons_neg h3, ih]
    · rw [erase_cons_neg h1]
      by_cases h3 : p.1 = k'
      · rw [at_cons_pos h3, at_cons_pos h3]
      · rw [at_cons_neg h3, at_cons_neg h3, ih]

theorem at_assign_self (k : String) (x i : XLRelationshipItem) (m : StdMap)
    (h : at_ k m = .ok i) : at_ k (assign k x m) = .ok x := by
  induction m with
  | nil => simp [at_] at h
  | cons p rest ih =>
    unfold assign
    by_cases h1 : p.1 = k
    · rw [if_pos h1]; exact at_cons_pos (p := (p.1, x)) h1 rest
    · rw [if_neg h1, at_cons_neg h1]
      rw [at_cons_neg h1] at h
      exact ih h

theorem at_assign_of_ne {k k' : String} (h : k' ≠ k) (x : XLRelationshipItem) (m : StdMap) :
    at_ k' (assign k x m) = at_ k' m := by
  induction m with
  | nil => rfl
  | cons p rest ih =>
    unfold assign
    by_cases h1 : p.1 = k
    · have h3 : ¬ p.1 = k' := by rw [h1]; exact h.symm
      rw [if_pos h1, at_cons_neg (p := (p.1, x)) h3, at_cons_neg h3]
    · rw [if_neg h1]
      by_cases h3 : p.1 = k'
      · rw [at_cons_pos h3, at_cons_pos h3]
      · rw [at_cons_neg h3, at_cons_neg h3, ih]

theorem at_assign_error (k v : String) (x : XLRelationshipItem) (m : StdMap) (e : XLError)
    (h : at_ k m = .error e) : at_ k (assign v x m) = .error e := by
  by_cases hk : k = v
  · rw [← hk]
    clear hk
    induction m with
    | nil => exact h
    | cons p rest ih =>
      unfold assign
      by_cases h1 : p.1 = k
      · rw [at_cons_pos h1] at h; cases h
      · rw [if_neg h1, at_cons_neg h1]
        rw [at_cons_neg h1] at h
        exact ih h
  · rw [at_assign_of_ne hk, h]

theorem at_erase_error (k k' : String) (m : StdMap)
    (h : at_ k m = .error .out_of_range) : at_ k (erase k' m) = .error .out_of_range := by
  by_cases hk : k = k'
  · rw [hk]; exact at_erase_self _ _
  · rw [at_erase_of_ne hk, h]

theorem erase_assign (k : String) (v : XLRelationshipItem) (m : StdMap) :
    erase k (assign k v m) = erase k m := by
  induction m with
  | nil => simp [erase, assign]
  | cons p rest ih =>
    unfold assign
    by_cases h1 : p.1 = k
    · rw [if_pos h1, erase_cons_pos h1]; exact erase_cons_pos (p := (p.1, v)) h1 rest
    · rw [if_neg h1, erase_cons_neg h1, erase_cons_neg h1, ih]

theorem at_error (k : String) (m : StdMap) (e : XLError) (h : at_ k m = .error e) :
    e = .out_of_range ∧ k ∉ keys m := by
  induction m with
  | nil => simp [at_] at h; simp [keys, h]
  | cons p rest ih =>
    unfold at_ at h
    by_cases h1 : p.1 = k
    · simp [h1] at h
    · simp only [h1, if_false] at h
      obtain ⟨h2, h3⟩ := ih h
      refine ⟨h2, ?_⟩
      simp only [keys, List.map_cons, List.mem_cons, not_or]
      exact ⟨fun h4 => h1 h4.symm, h3⟩

theorem at_ok_mem (k : String) (m : StdMap) (v : XLRelationshipItem) (h : at_ k m = .ok v) :
    (k, v) ∈ m := by
  induction m with
  | nil => simp [at_] at h
  | cons p rest ih =>
    unfold at_ at h
    by_cases h1 : p.1 = k
    · simp only [h1, if_true, Except.ok.injEq] at h
      rw [← h, ← h1]; simp
    · simp only [h1, if_false] at h
      exact List.mem_cons_of_mem _ (ih h)

theorem at_ok_of_mem_keys (k : String) (m : StdMap) (h : k ∈ keys m) :
    ∃ v, at_ k m = .ok v := by
  cases hr : at_ k m with
  | ok v => exact ⟨v, rfl⟩
  | error e => exact absurd h (at_error k m e hr).2

theorem mem_insert {k : String} {v : XLRelationshipItem} {m : StdMap}
    {q : String × XLRelationshipItem} (h : q ∈ insert_or_assign k v m) :
    q = (k, v) ∨ q ∈ m := by
  induction m with
  | nil => simpa [insert_or_assign] using h
  | cons p rest ih =>
    unfold insert_or_assign at h
    by_cases h1 : p.1 = k
    · rw [if_pos h1, List.mem_cons] at h
      rcases h with h | h
      · exact Or.inl h
      · exact Or.inr (List.mem_cons_of_mem _ h)
    · by_cases h2 : keyLt k p.1 = true
      · rw [if_neg h1, if_pos h2, List.mem_cons] at h
        rcases h with h | h
        · exact Or.inl h
        · exact Or.inr h
      · rw [if_neg h1, if_neg h2, List.mem_cons] at h
        rcases h with h | h
        · exact Or.inr (by simp [h])
        · rcases ih h with h | h
          · exact Or.inl h
          · exact Or.inr (List.mem_cons_of_mem _ h)

theorem sorted_insert (k : String) (v : XLRelationshipItem) (m : StdMap) (h : Sorted m) :
    Sorted (insert_or_assign k v m) := by
  induction m with
  | nil => simp [insert_or_assign, Sorted]
  | cons p rest ih =>
    unfold Sorted at h ih ⊢
    rw [List.pairwise_cons] at h
    unfold insert_or_assign
    by_cases h1 : p.1 = k
    · rw [if_pos h1, List.pairwise_cons]
      refine ⟨fun q hq => ?_, h.2⟩
      have := h.1 q hq
      rwa [h1] at this
    · by_cases h2 : keyLt k p.1 = true
      · rw [if_neg h1, if_pos h2, List.pairwise_cons]
        refine ⟨fun q hq => ?_, List.pairwise_cons.mpr h⟩
        rcases List.mem_cons.mp hq with hq | hq
        · rw [hq]; exact h2
        · exact keyLt_trans h2 (h.1 q hq)
      · rw [if_neg h1, if_neg h2, List.pairwise_cons]
        refine ⟨fun q hq => ?_, ih h.2⟩
        rcases mem_insert hq with hq | hq
        · rw [hq]; exact keyLt_of_not h2 h1
        · exact h.1 q hq

theorem sorted_erase (k : String) (m : StdMap) (h : Sorted m) : Sorted (erase k m) :=
  List.Pairwise.sublist (List.filter_sublist m) h

theorem sorted_keys_nodup (m : StdMap) (h : Sorted m) : (keys m).Nodup := by
  unfold keys Sorted at *
  rw [List.Nodup, List.pairwise_map]
  exact h.imp (fun hab => keyLt_ne hab)

end StdMap

theorem StringRef.read_assign (id : StringRef) (m : StdMap) (k : String)
    (x : XLRelationshipItem) (h : (id.read m).isSome) :
    (id.read (StdMap.assign k x m)).isSome := by
  cases id with
  | value s => rfl
  | idOf key =>
    cases ha : StdMap.at_ key m with
    | error e => simp [StringRef.read, ha] at h
    | ok i =>
      by_cases hk : key = k
      · rw [hk] at ha
        simp [StringRef.read, hk, StdMap.at_assign_self k x i m ha]
      · simp [StringRef.read, StdMap.at_assign_of_ne hk, ha]
  | targetOf key =>
    cases ha : StdMap.at_ key m with
    | error e => simp [StringRef.read, ha] at h
    | ok i =>
      by_cases hk : key = k
      · rw [hk] at ha
        simp [StringRef.read, hk, StdMap.at_assign_self k x i m ha]
      · simp [StringRef.read, StdMap.at_assign_of_ne hk, ha]

/-! ## The type resolver -/

theorem ToUri_Unknown : ToUri XLRelationshipType.Unknown = .error UnrecognizedType := rfl

theorem ToUri_known (ty : XLRelationshipType) (h : ty ≠ XLRelationshipType.Unknown) :
    ∃ u, ToUri ty = .ok u := by
  cases ty <;> first | exact ⟨_, rfl⟩ | exact absurd rfl h

theorem ToUri_error (ty : XLRelationshipType) (e : XLError) (h : ToUri ty = .error e) :
    ty = XLRelationshipType.Unknown ∧ e = UnrecognizedType := by
  cases ty <;>
    first
    | exact ⟨rfl, by rw [ToUri_Unknown] at h; injection h with h; exact h.symm⟩
    | simp [ToUri] at h

/-! ## What the calls do to the registry -/

namespace XLRelationships

/-- A successful `AddRelationship` (lines 205-233), one step at a time. -/
theorem AddRelationship_ok (s : XLRelationships) (ty : XLRelationshipType) (t u : String)
    (h : ToUri ty = .ok u) :
    s.AddRelationship ty t =
      ({ m_xmlDocument :=
           { children := s.m_xmlDocument.children ++ [s.newNode ty t u]
             nextHandle := s.m_xmlDocument.nextHandle + 1 }
         m_relationships :=
           StdMap.insert_or_assign ("rId" ++ to_string (s.m_relationshipCount + 1))
             (s.newItem ty t) s.m_relationships
         m_relationshipCount := s.m_relationshipCount + 1
         m_savedData := s.m_xmlDocument.children ++ [s.newNode ty t u]
         m_isModified := true },
       .ok (s.newItem ty t)) := by
  unfold AddRelationship
  rw [h]
  by_cases hx : ty = XLRelationshipType.ExternalLinkPath
  · simp [hx, newNode, newItem, XLRelationshipItem.new, SetModified, SaveXMLData,
      XMLDocument.createNode, XMLDocument.createAttribute, XMLDocument.appendNode,
      XMLNode.appendAttribute]
  · simp [hx, newNode, newItem, XLRelationshipItem.new, SetModified, SaveXMLData,
      XMLDocument.createNode, XMLDocument.createAttribute, XMLDocument.appendNode,
      XMLNode.appendAttribute]

end XLRelationships

namespace XLRelationships

/-- A failed `AddRelationship` (line 203): the throw comes before any assignment. -/
theorem AddRelationship_error (s : XLRelationships) (ty : XLRelationshipType) (t : String)
    (e : XLError) (h : ToUri ty = .error e) : s.AddRelationship ty t = (s, .error e) := by
  unfold AddRelationship
  rw [h]

/-- A `DeleteRelationship` through a dangling reference. -/
theorem DeleteRelationship_dangling (s : XLRelationships) (id : StringRef)
    (hv : id.read s.m_relationships = none) :
    s.DeleteRelationship id = (s, .error .dangling_reference) := by
  unfold DeleteRelationship
  rw [hv]

/-- A failed `DeleteRelationship` (line 147): `at` throws before any assignment,
whatever the reference is bound to. -/
theorem DeleteRelationship_ref_error (s : XLRelationships) (id : StringRef) (v : String)
    (e : XLError) (hv : id.read s.m_relationships = some v)
    (h : StdMap.at_ v s.m_relationships = .error e) :
    s.DeleteRelationship id = (s, .error e) := by
  unfold DeleteRelationship Relationships
  rw [hv]
  simp only
  rw [h]

/-- A successful `DeleteRelationship` (lines 147-150), one step at a time: the entry
under the string read at line 147 is reset in place, and the key erased is the string
read at line 148. -/
theorem DeleteRelationship_ref_ok (s : XLRelationships) (id : StringRef) (v : String)
    (item : XLRelationshipItem) (hv : id.read s.m_relationships = some v)
    (h : StdMap.at_ v s.m_relationships = .ok item) :
    ∃ v', id.read (StdMap.assign v deletedItem s.m_relationships) = some v' ∧
      s.DeleteRelationship id =
        ({ m_xmlDocument := (item.Delete s.m_xmlDocument).2
           m_relationships := StdMap.erase v' (StdMap.assign v deletedItem s.m_relationships)
           m_relationshipCount := s.m_relationshipCount
           m_savedData := (item.Delete s.m_xmlDocument).2.children
           m_isModified := true },
         .ok ()) := by
  have hsome : (id.read (StdMap.assign v deletedItem s.m_relationships)).isSome :=
    StringRef.read_assign id s.m_relationships v deletedItem (by rw [hv]; rfl)
  obtain ⟨v', hv'⟩ := Option.isSome_iff_exists.mp hsome
  refine ⟨v', hv', ?_⟩
  have hd : (item.Delete s.m_xmlDocument).1 = deletedItem := rfl
  unfold DeleteRelationship Relationships
  rw [hv]
  simp only
  rw [h]
  simp only [hd, hv']
  rfl

/-- A failed `DeleteRelationship` (line 147) by a string of the caller's own. -/
theorem DeleteRelationship_error (s : XLRelationships) (id : String) (e : XLError)
    (h : StdMap.at_ id s.m_relationships = .error e) :
    s.DeleteRelationship (.value id) = (s, .error e) :=
  DeleteRelationship_ref_error s (.value id) id e rfl h

/-- A successful `DeleteRelationship` (lines 147-150) by a string of the caller's own:
the key erased is the key looked up. -/
theorem DeleteRelationship_ok (s : XLRelationships) (id : String) (item : XLRelationshipItem)
    (h : StdMap.at_ id s.m_relationships = .ok item) :
    s.DeleteRelationship (.value id) =
      ({ m_xmlDocument := (item.Delete s.m_xmlDocument).2
         m_relationships := StdMap.erase id s.m_relationships
         m_relationshipCount := s.m_relationshipCount
         m_savedData := (item.Delete s.m_xmlDocument).2.children
         m_isModified := true },
       .ok ()) := by
  obtain ⟨v', hv', heq⟩ := DeleteRelationship_ref_ok s (.value id) id item rfl h
  have : v' = id := (Option.some.inj hv').symm
  rw [heq, this, StdMap.erase_assign]

/-- No `DeleteRelationship` changes the allocation counter. -/
theorem DeleteRelationship_count (s : XLRelationships) (id : StringRef) :
    (s.DeleteRelationship id).1.m_relationshipCount = s.m_relationshipCount := by
  cases hv : id.read s.m_relationships with
  | none => rw [DeleteRelationship_dangling s id hv]
  | some v =>
    cases h : StdMap.at_ v s.m_relationships with
    | error e => rw [DeleteRelationship_ref_error s id v e hv h]
    | ok item =>
      obtain ⟨v', _, heq⟩ := DeleteRelationship_ref_ok s id v item hv h
      rw [heq]

theorem step_IndexInv (s : XLRelationships) (c : Call) (hc : c.Plain) (h : s.IndexInv) :
    (step s c).IndexInv := by
  obtain ⟨h1, h2, h3⟩ := h
  cases c with
  | Add ty t =>
    show ((s.AddRelationship ty t).1).IndexInv
    cases hu : ToUri ty with
    | error e => rw [AddRelationship_error s ty t e hu]; exact ⟨h1, h2, h3⟩
    | ok u =>
      rw [AddRelationship_ok s ty t u hu]
      refine ⟨StdMap.sorted_insert _ _ _ h1, ?_, ?_⟩
      · intro p hp
        rcases StdMap.mem_insert hp with hp | hp
        · rw [hp]; rfl
        · exact h2 p hp
      · intro p hp
        rcases StdMap.mem_insert hp with hp | hp
        · rw [hp]; simp [newItem]
        · exact h3 p hp
  | Delete ref =>
    cases ref with
    | idOf k => exact absurd hc (fun hf => hf)
    | targetOf k => exact absurd hc (fun hf => hf)
    | value id =>
      show ((s.DeleteRelationship (.value id)).1).IndexInv
      cases ha : StdMap.at_ id s.m_relationships with
      | error e => rw [DeleteRelationship_error s id e ha]; exact ⟨h1, h2, h3⟩
      | ok item =>
        rw [DeleteRelationship_ok s id item ha]
        refine ⟨StdMap.sorted_erase _ _ h1, ?_, ?_⟩
        · intro p hp
          exact h2 p (List.mem_of_mem_filter hp)
        · intro p hp
          exact h3 p (List.mem_of_mem_filter hp)

theorem run_IndexInv (calls : List Call) :
    ∀ s : XLRelationships, (∀ c ∈ calls, c.Plain) → s.IndexInv → (run s calls).IndexInv := by
  induction calls with
  | nil => intro s _ h; exact h
  | cons c cs ih =>
    intro s hc h
    exact ih _ (fun c' hc' => hc c' (List.mem_cons_of_mem _ hc'))
      (step_IndexInv s c (hc c (List.mem_cons_self _ _)) h)

theorem ParseXMLData_loop_inv (nodes : List XMLNode) :
    ∀ m m' : StdMap, ParseXMLData.loop nodes m = (m', .ok ()) →
      (StdMap.Sorted m ∧ StdMap.KeysAreIds m ∧ StdMap.AllLive m) →
      (StdMap.Sorted m' ∧ StdMap.KeysAreIds m' ∧ StdMap.AllLive m') := by
  induction nodes with
  | nil =>
    intro m m' h hm
    simp only [ParseXMLData.loop, Prod.mk.injEq, and_true] at h
    rw [← h]; exact hm
  | cons n rest ih =>
    intro m m' h hm
    unfold ParseXMLData.loop at h
    cases h1 : n.attribute "Type" with
    | none => simp [h1] at h
    | some a1 =>
      cases h2 : n.attribute "Target" with
      | none => simp [h1, h2] at h
      | some a2 =>
        cases h3 : n.attribute "Id" with
        | none => simp [h1, h2, h3] at h
        | some a3 =>
          simp only [h1, h2, h3] at h
          refine ih _ _ h ⟨StdMap.sorted_insert _ _ _ hm.1, ?_, ?_⟩
          · intro p hp
            rcases StdMap.mem_insert hp with hp | hp
            · rw [hp]; rfl
            · exact hm.2.1 p hp
          · intro p hp
            rcases StdMap.mem_insert hp with hp | hp
            · rw [hp]; simp [XLRelationshipItem.new]
            · exact hm.2.2 p hp

theorem Load_IndexInv (tree : XMLDocument) (reg : XLRelationships)
    (h : Load tree = .ok reg) : reg.IndexInv := by
  unfold Load ParseXMLData at h
  simp only at h
  cases hl : ParseXMLData.loop tree.children [] with
  | mk m r =>
    rw [hl] at h
    cases r with
    | error e => simp at h
    | ok u =>
      simp only [Except.ok.injEq] at h
      rw [← h]
      exact ParseXMLData_loop_inv tree.children [] m hl
        ⟨List.Pairwise.nil, fun p hp => by simp at hp, fun p hp => by simp at hp⟩

end XLRelationships

/-! ## Pairwise-distinct ids -/

/-- Along plain calls (the part of C1 that the code keeps): starting from the registry
that `Load` (`ParseXMLData`) produces from any backing tree, after every finite sequence
of `AddRelationship` calls and `DeleteRelationship` calls on strings of the caller's
own, failed calls included, every key of the index equals the `Id()` of the entry stored
under it, every entry of the index is Live, and the entries of the index have
pairwise-distinct ids. -/
theorem index_keys_are_ids_after_plain_calls (tree : XMLDocument) (reg : XLRelationships)
    (calls : List Call) (h : XLRelationships.Load tree = .ok reg)
    (hplain : ∀ c ∈ calls, c.Plain) :
    (∀ p ∈ (run reg calls).m_relationships, p.1 = p.2.Id) ∧
    (∀ p ∈ (run reg calls).m_relationships, p.2.m_relationshipNode ≠ none) ∧
    ((run reg calls).m_relationships.map (fun p => p.2.Id)).Nodup := by
  obtain ⟨h1, h2, h3⟩ := XLRelationships.run_IndexInv calls reg hplain
    (XLRelationships.Load_IndexInv tree reg h)
  refine ⟨h2, h3, ?_⟩
  have hk := StdMap.sorted_keys_nodup _ h1
  have he : (run reg calls).m_relationships.map (fun p => p.2.Id) =
      StdMap.keys (run reg calls).m_relationships := by
    unfold StdMap.keys
    exact List.map_congr_left (fun p hp => (h2 p hp).symm)
  rw [he]; exact hk

set_option maxRecDepth 100000 in
/-- An instance on `sampleTree`: an add, a failed add, a delete, a failed delete and
another add, all plain. -/
theorem index_keys_are_ids_after_plain_calls_witness :
    XLRelationships.Load sampleTree = .ok sampleRegistry ∧
    ((∀ p ∈ (run sampleRegistry
        [.Add .Worksheet "worksheets/sheet1.xml", .Add .Unknown "x", .Delete (.value "rId1"),
         .Delete (.value "rId9"), .Add .Image "media/image1.png"]).m_relationships,
        p.1 = p.2.Id) ∧
     (∀ p ∈ (run sampleRegistry
        [.Add .Worksheet "worksheets/sheet1.xml", .Add .Unknown "x", .Delete (.value "rId1"),
         .Delete (.value "rId9"), .Add .Image "media/image1.png"]).m_relationships,
        p.2.m_relationshipNode ≠ none) ∧
     ((run sampleRegistry
        [.Add .Worksheet "worksheets/sheet1.xml", .Add .Unknown "x", .Delete (.value "rId1"),
         .Delete (.value "rId9"), .Add .Image "media/image1.png"]).m_relationships.map
        (fun p => p.2.Id)).Nodup) :=
  ⟨rfl, index_keys_are_ids_after_plain_calls sampleTree sampleRegistry _ rfl (by decide)⟩

set_option maxRecDepth 100000 in
/-- C1 fails on the code: on the registry loaded from the empty tree, after two adds and
`DeleteRelationship(RelationshipByID("rId2").Id())`, line 65 has emptied the string
that `id` refers to before line 148 erases under it, so nothing is erased: the index
still has the key "rId2", and the entry stored under it has `Id()` = "" and no node. The
key differs from the `Id()` of its entry. -/
theorem aliased_delete_leaves_key_with_reset_entry :
    XLRelationships.Load emptyTree = .ok emptyRegistry ∧
    (run emptyRegistry aliasedDeleteCalls).m_relationships =
      [("rId1", ⟨some 0, .Worksheet, "worksheets/sheet1.xml", "rId1"⟩),
       ("rId2", ⟨none, .Unknown, "", ""⟩)] ∧
    ¬ (∀ p ∈ (run emptyRegistry aliasedDeleteCalls).m_relationships, p.1 = p.2.Id) := by
  refine ⟨rfl, by decide, by decide⟩

/-! ## Allocation of ids -/

theorem returnedId_step (s : XLRelationships) (c : Call) :
    (returnedId s c = none ∧
      (step s c).m_relationshipCount = s.m_relationshipCount) ∨
    (returnedId s c = some ("rId" ++ to_string (s.m_relationshipCount + 1)) ∧
      (step s c).m_relationshipCount = s.m_relationshipCount + 1) := by
  cases c with
  | Add ty t =>
    cases hu : ToUri ty with
    | error e =>
      left
      simp [returnedId, step, XLRelationships.AddRelationship_error s ty t e hu]
    | ok u =>
      right
      simp [returnedId, step, XLRelationships.AddRelationship_ok s ty t u hu,
        XLRelationships.newItem, XLRelationshipItem.Id]
  | Delete id =>
    left
    exact ⟨rfl, XLRelationships.DeleteRelationship_count s id⟩

theorem returnedIds_eq (calls : List Call) :
    ∀ s : XLRelationships,
      returnedIds s calls =
        (List.range (returnedIds s calls).length).map
          (fun i => "rId" ++ to_string (s.m_relationshipCount + 1 + i)) := by
  induction calls with
  | nil => intro s; simp [returnedIds]
  | cons c cs ih =>
    intro s
    have ih1 := ih (step s c)
    rcases returnedId_step s c with ⟨h1, h2⟩ | ⟨h1, h2⟩
    · rw [h2] at ih1
      simpa [returnedIds, h1] using ih1
    · rw [h2] at ih1
      have hf : (fun i => "rId" ++ to_string (s.m_relationshipCount + 1 + 1 + i)) =
          (fun i => "rId" ++ to_string (s.m_relationshipCount + 1 + i)) ∘ Nat.succ := by
        funext i
        show _ = "rId" ++ to_string (s.m_relationshipCount + 1 + (i + 1))
        rw [Nat.add_assoc (s.m_relationshipCount + 1) 1 i, Nat.add_comm 1 i]
      rw [hf] at ih1
      simp only [returnedIds, h1, Option.toList, List.singleton_append, List.length_cons,
        List.range_succ_eq_map, List.map_cons, List.map_map, Nat.add_zero]
      rw [← ih1]

/-- C2: for every starting registry state and every finite sequence of
`AddRelationship` / `DeleteRelationship` calls, the ids returned by the successful adds
are "rId" followed by the decimal form of consecutive numbers: the j-th of them
(counting from 0) is "rId" followed by the decimal form of the starting counter plus
j + 1, whatever deletes or failed adds come in between; so no id is returned twice,
also not after the entry it named was deleted. -/
theorem returned_ids_consecutive_and_never_reused (s : XLRelationships)
    (calls : List Call) :
    returnedIds s calls =
      (List.range (returnedIds s calls).length).map
        (fun j => "rId" ++ to_string (s.m_relationshipCount + 1 + j)) ∧
    (returnedIds s calls).Nodup := by
  refine ⟨returnedIds_eq calls s, ?_⟩
  rw [returnedIds_eq calls s]
  refine List.Nodup.map ?_ (List.nodup_range _)
  intro a b hab
  have := rId_injective hab
  omega

theorem mem_knownTypes_iff (ty : XLRelationshipType) :
    ty ∈ knownTypes ↔ ty ≠ XLRelationshipType.Unknown := by
  cases ty <;> simp [knownTypes]

theorem ToUri_of_mem_knownTypes (ty : XLRelationshipType) (h : ty ∈ knownTypes) :
    ∃ u, ToUri ty = .ok u :=
  ToUri_known ty ((mem_knownTypes_iff ty).mp h)

/-! ## `AddRelationship` -/

/-- C3: for every registry state with allocation counter c, each of the 21 known
relationship types ty and every target t, `AddRelationship(ty, t)` succeeds, sets the
counter to c + 1 and returns an entry with `Id()` = "rId" ++ decimal(c + 1),
`Type()` = ty and `Target()` = t; immediately afterwards `RelationshipByID` of that id
succeeds and returns that entry, with exactly these three fields. -/
theorem add_succeeds_and_lookup_finds_it (s : XLRelationships) (ty : XLRelationshipType)
    (t : String) (h : ty ∈ knownTypes) :
    ∃ e : XLRelationshipItem,
      (s.AddRelationship ty t).2 = .ok e ∧
      (s.AddRelationship ty t).1.m_relationshipCount = s.m_relationshipCount + 1 ∧
      e.Id = "rId" ++ to_string (s.m_relationshipCount + 1) ∧
      e.Type_ = ty ∧ e.Target = t ∧
      ∃ e' : XLRelationshipItem,
        (s.AddRelationship ty t).1.RelationshipByID e.Id = .ok e' ∧
        e'.Id = "rId" ++ to_string (s.m_relationshipCount + 1) ∧
        e'.Type_ = ty ∧ e'.Target = t := by
  obtain ⟨u, hu⟩ := ToUri_of_mem_knownTypes ty h
  rw [XLRelationships.AddRelationship_ok s ty t u hu]
  refine ⟨s.newItem ty t, rfl, rfl, rfl, rfl, rfl, s.newItem ty t, ?_, rfl, rfl, rfl⟩
  exact StdMap.at_insert_self _ _ _

/-- Witness of C3: adding a worksheet to `sampleRegistry`, whose counter is 2. -/
theorem add_succeeds_and_lookup_finds_it_witness :
    XLRelationshipType.Worksheet ∈ knownTypes ∧
    ∃ e : XLRelationshipItem,
      (sampleRegistry.AddRelationship .Worksheet "worksheets/sheet1.xml").2 = .ok e ∧
      (sampleRegistry.AddRelationship .Worksheet "worksheets/sheet1.xml").1.m_relationshipCount
        = sampleRegistry.m_relationshipCount + 1 ∧
      e.Id = "rId" ++ to_string (sampleRegistry.m_relationshipCount + 1) ∧
      e.Type_ = .Worksheet ∧ e.Target = "worksheets/sheet1.xml" ∧
      ∃ e' : XLRelationshipItem,
        (sampleRegistry.AddRelationship .Worksheet
          "worksheets/sheet1.xml").1.RelationshipByID e.Id = .ok e' ∧
        e'.Id = "rId" ++ to_string (sampleRegistry.m_relationshipCount + 1) ∧
        e'.Type_ = .Worksheet ∧ e'.Target = "worksheets/sheet1.xml" :=
  ⟨by decide,
   add_succeeds_and_lookup_finds_it sampleRegistry .Worksheet "worksheets/sheet1.xml"
     (by decide)⟩

theorem Load_of_no_children (tree : XMLDocument) (h : tree.children = []) :
    XLRelationships.Load tree =
      .ok { m_xmlDocument := tree
            m_relationships := []
            m_relationshipCount := 0
            m_savedData := []
            m_isModified := false } := by
  simp [XLRelationships.Load, XLRelationships.ParseXMLData, XLRelationships.ParseXMLData.loop,
    h, StdMap.size]

/-- C4, as amended: on a registry loaded from an empty backing tree,
`AddRelationship(Worksheet, "worksheets/sheet1.xml")` returns an entry whose `Id()` is
"rId1", and a subsequent `AddRelationship` of any of the 21 known types, with any
target, returns an entry whose `Id()` is "rId2". -/
theorem first_two_ids_on_empty_registry (tree : XMLDocument) (reg : XLRelationships)
    (ty : XLRelationshipType) (t : String)
    (htree : tree.children = []) (hload : XLRelationships.Load tree = .ok reg)
    (hty : ty ∈ knownTypes) :
    ∃ e1 e2 : XLRelationshipItem,
      (reg.AddRelationship .Worksheet "worksheets/sheet1.xml").2 = .ok e1 ∧
      e1.Id = "rId1" ∧
      ((reg.AddRelationship .Worksheet "worksheets/sheet1.xml").1.AddRelationship ty t).2
        = .ok e2 ∧
      e2.Id = "rId2" := by
  rw [Load_of_no_children tree htree] at hload
  injection hload with hload
  obtain ⟨u, hu⟩ := ToUri_of_mem_knownTypes ty hty
  rw [XLRelationships.AddRelationship_ok _ .Worksheet _ _ rfl,
    XLRelationships.AddRelationship_ok _ ty t u hu]
  refine ⟨_, _, rfl, ?_, rfl, ?_⟩
  · rw [← hload]
    show "rId" ++ to_string (0 + 1) = "rId1"
    decide
  · rw [← hload]
    show "rId" ++ to_string (0 + 1 + 1) = "rId2"
    decide

/-- Witness of C4 as amended: on the registry loaded from `emptyTree`, with an image
as the second relationship. -/
theorem first_two_ids_on_empty_registry_witness :
    emptyTree.children = [] ∧ XLRelationships.Load emptyTree = .ok emptyRegistry ∧
    XLRelationshipType.Image ∈ knownTypes ∧
    ∃ e1 e2 : XLRelationshipItem,
      (emptyRegistry.AddRelationship .Worksheet "worksheets/sheet1.xml").2 = .ok e1 ∧
      e1.Id = "rId1" ∧
      ((emptyRegistry.AddRelationship .Worksheet "worksheets/sheet1.xml").1.AddRelationship
        .Image "media/image1.png").2 = .ok e2 ∧
      e2.Id = "rId2" :=
  ⟨rfl, rfl, by decide,
   first_two_ids_on_empty_registry emptyTree emptyRegistry .Image "media/image1.png"
     rfl rfl (by decide)⟩

/-- C4 as stated fails: on the registry loaded from the empty tree, after
`AddRelationship(Worksheet, "worksheets/sheet1.xml")` the call
`AddRelationship(Unknown, "x")` throws and returns no entry, so none with the id
"rId2". -/
theorem second_add_of_unknown_type_throws :
    XLRelationships.Load emptyTree = .ok emptyRegistry ∧
    ((emptyRegistry.AddRelationship .Worksheet "worksheets/sheet1.xml").1.AddRelationship
      .Unknown "x").2 = .error UnrecognizedType ∧
    ¬ ∃ e : XLRelationshipItem,
      ((emptyRegistry.AddRelationship .Worksheet "worksheets/sheet1.xml").1.AddRelationship
        .Unknown "x").2 = .ok e ∧ e.Id = "rId2" := by
  refine ⟨rfl, rfl, ?_⟩
  rintro ⟨e, he, -⟩
  have h2 : ((emptyRegistry.AddRelationship .Worksheet
      "worksheets/sheet1.xml").1.AddRelationship .Unknown "x").2 =
      .error UnrecognizedType := rfl
  rw [h2] at he
  cases he

/-- C5: `AddRelationship(ty, t)` fails, with the `runtime_error`
"RelationshipType not recognized!", if and only if ty is not one of the 21 known
types, that is, if and only if ty is the `Unknown` sentinel; and whenever it fails, the
error is that one and the whole registry state (index, allocation counter, backing
tree, saved data, modified mark) is as before the call. -/
theorem add_fails_iff_type_unknown (s : XLRelationships) (ty : XLRelationshipType)
    (t : String) :
    ((s.AddRelationship ty t).2 = .error UnrecognizedType ↔ ty ∉ knownTypes) ∧
    ((∃ e, (s.AddRelationship ty t).2 = .error e) ↔ ty = XLRelationshipType.Unknown) ∧
    (∀ e, (s.AddRelationship ty t).2 = .error e →
      e = .runtime_error "RelationshipType not recognized!" ∧
      (s.AddRelationship ty t).1 = s) := by
  cases hu : ToUri ty with
  | error e =>
    obtain ⟨h1, h2⟩ := ToUri_error ty e hu
    rw [XLRelationships.AddRelationship_error s ty t e hu]
    refine ⟨?_, ?_, ?_⟩
    · rw [mem_knownTypes_iff]; simp [h1, h2]
    · simp [h1]
    · intro e' he'
      injection he' with he'
      exact ⟨by rw [← he', h2]; rfl, rfl⟩
  | ok u =>
    have hk : ty ≠ XLRelationshipType.Unknown := by
      intro h; rw [h, ToUri_Unknown] at hu; cases hu
    rw [XLRelationships.AddRelationship_ok s ty t u hu]
    refine ⟨?_, ?_, ?_⟩
    · rw [mem_knownTypes_iff]; simp [hk]
    · simp [hk]
    · intro e' he'; cases he'

/-! ## `DeleteRelationship` and the lookups -/

theorem step_keeps_absent (s : XLRelationships) (c : Call) (id : String)
    (h : StdMap.at_ id s.m_relationships = .error .out_of_range)
    (hc : returnedId s c ≠ some id) :
    StdMap.at_ id (step s c).m_relationships = .error .out_of_range := by
  cases c with
  | Add ty t =>
    cases hu : ToUri ty with
    | error e =>
      show StdMap.at_ id (s.AddRelationship ty t).1.m_relationships = _
      rw [XLRelationships.AddRelationship_error s ty t e hu]; exact h
    | ok u =>
      have hne : id ≠ "rId" ++ to_string (s.m_relationshipCount + 1) := by
        intro heq
        apply hc
        simp [returnedId, XLRelationships.AddRelationship_ok s ty t u hu,
          XLRelationships.newItem, XLRelationshipItem.Id, heq]
      show StdMap.at_ id (s.AddRelationship ty t).1.m_relationships = _
      rw [XLRelationships.AddRelationship_ok s ty t u hu]
      show StdMap.at_ id (StdMap.insert_or_assign _ _ s.m_relationships) = _
      rw [StdMap.at_insert_of_ne hne, h]
  | Delete ref =>
    show StdMap.at_ id (s.DeleteRelationship ref).1.m_relationships = _
    cases hv : ref.read s.m_relationships with
    | none => rw [XLRelationships.DeleteRelationship_dangling s ref hv]; exact h
    | some v =>
      cases ha : StdMap.at_ v s.m_relationships with
      | error e => rw [XLRelationships.DeleteRelationship_ref_error s ref v e hv ha]; exact h
      | ok item =>
        obtain ⟨v', _, heq⟩ := XLRelationships.DeleteRelationship_ref_ok s ref v item hv ha
        rw [heq]
        exact StdMap.at_erase_error _ _ _ (StdMap.at_assign_error _ _ _ _ _ h)

theorem run_keeps_absent (id : String) (calls : List Call) :
    ∀ s : XLRelationships, StdMap.at_ id s.m_relationships = .error .out_of_range →
      id ∉ returnedIds s calls →
      StdMap.at_ id (run s calls).m_relationships = .error .out_of_range := by
  induction calls with
  | nil => intro s h _; exact h
  | cons c cs ih =>
    intro s h hn
    simp only [returnedIds, List.mem_append, not_or] at hn
    refine ih (step s c) (step_keeps_absent s c id h ?_) hn.2
    intro hc
    apply hn.1
    rw [hc]; simp

/-- By a string of the caller's own (the part of C6 that the code keeps): for every
registry state and every id present in the index, `DeleteRelationship(id)` on a string
that is not a member of an entry succeeds, after it `RelationshipByID(id)` fails with
the map's out-of-range error (IdNotFound), and it still fails after every further
sequence of calls in which no `AddRelationship` returns that same id string. -/
theorem lookup_fails_after_plain_delete (s : XLRelationships) (id : String)
    (h : id ∈ StdMap.keys s.m_relationships) :
    (s.DeleteRelationship (.value id)).2 = .ok () ∧
    (s.DeleteRelationship (.value id)).1.RelationshipByID id = .error IdNotFound ∧
    ∀ calls : List Call, id ∉ returnedIds (s.DeleteRelationship (.value id)).1 calls →
      (run (s.DeleteRelationship (.value id)).1 calls).RelationshipByID id =
        .error IdNotFound := by
  obtain ⟨item, hitem⟩ := StdMap.at_ok_of_mem_keys id s.m_relationships h
  have hafter : StdMap.at_ id (s.DeleteRelationship (.value id)).1.m_relationships =
      .error .out_of_range := by
    rw [XLRelationships.DeleteRelationship_ok s id item hitem]
    exact StdMap.at_erase_self _ _
  refine ⟨by rw [XLRelationships.DeleteRelationship_ok s id item hitem], hafter, ?_⟩
  intro calls hcalls
  exact run_keeps_absent id calls _ hafter hcalls

set_option maxRecDepth 100000 in
/-- An instance: deleting "rId1" from `sampleRegistry` by a string of the caller's, then
an add (which returns "rId3"), a delete of "rId2" and a failed add. -/
theorem lookup_fails_after_plain_delete_witness :
    "rId1" ∈ StdMap.keys sampleRegistry.m_relationships ∧
    "rId1" ∉ returnedIds (sampleRegistry.DeleteRelationship (.value "rId1")).1
      [.Add .Theme "theme/theme1.xml", .Delete (.value "rId2"), .Add .Unknown "x"] ∧
    (run (sampleRegistry.DeleteRelationship (.value "rId1")).1
      [.Add .Theme "theme/theme1.xml", .Delete (.value "rId2"),
       .Add .Unknown "x"]).RelationshipByID "rId1" = .error IdNotFound :=
  ⟨by decide, by decide,
   (lookup_fails_after_plain_delete sampleRegistry "rId1" (by decide)).2.2 _ (by decide)⟩

set_option maxRecDepth 100000 in
/-- C6 fails on the code: on the registry loaded from the empty tree, after two adds,
"rId2" is a key of the index and `DeleteRelationship(RelationshipByID("rId2").Id())`
succeeds, but afterwards `RelationshipByID("rId2")` does not throw: it returns the reset
entry, which line 148 did not erase because the string `id` refers to was emptied at
line 65. -/
theorem lookup_succeeds_after_aliased_delete :
    "rId2" ∈ StdMap.keys (run emptyRegistry
      [.Add .Worksheet "worksheets/sheet1.xml", .Add .Styles "styles.xml"]).m_relationships ∧
    ((run emptyRegistry
      [.Add .Worksheet "worksheets/sheet1.xml",
       .Add .Styles "styles.xml"]).DeleteRelationship (.idOf "rId2")).2 = .ok () ∧
    ((run emptyRegistry
      [.Add .Worksheet "worksheets/sheet1.xml",
       .Add .Styles "styles.xml"]).DeleteRelationship (.idOf "rId2")).1.RelationshipByID
        "rId2" = .ok ⟨none, .Unknown, "", ""⟩ ∧
    ((run emptyRegistry
      [.Add .Worksheet "worksheets/sheet1.xml",
       .Add .Styles "styles.xml"]).DeleteRelationship (.idOf "rId2")).1.RelationshipByID
        "rId2" ≠ .error IdNotFound := by
  refine ⟨by decide, rfl, rfl, ?_⟩
  intro h
  have h2 : ((run emptyRegistry
      [.Add .Worksheet "worksheets/sheet1.xml",
       .Add .Styles "styles.xml"]).DeleteRelationship (.idOf "rId2")).1.RelationshipByID
        "rId2" = .ok ⟨none, .Unknown, "", ""⟩ := rfl
  rw [h2] at h
  cases h

/-- C7: `DeleteRelationship(id)`, whatever `id` is bound to (a string of the caller's
own, or the `Id()` or `Target()` of an entry of the index), v being the string it refers
to at the call: the call fails with the map's out-of-range error (IdNotFound) if and
only if v is not a key of the index; it throws no other error; when it fails the whole
registry state (index, allocation counter, backing tree, saved data, modified mark) is
as before the call; and when v is a key it succeeds. -/
theorem delete_fails_iff_id_absent (s : XLRelationships) (id : StringRef) (v : String)
    (hv : id.read s.m_relationships = some v) :
    ((s.DeleteRelationship id).2 = .error IdNotFound ↔
      v ∉ StdMap.keys s.m_relationships) ∧
    (∀ e, (s.DeleteRelationship id).2 = .error e →
      e = IdNotFound ∧ (s.DeleteRelationship id).1 = s) ∧
    (v ∈ StdMap.keys s.m_relationships → (s.DeleteRelationship id).2 = .ok ()) := by
  cases ha : StdMap.at_ v s.m_relationships with
  | error e =>
    obtain ⟨h1, h2⟩ := StdMap.at_error v s.m_relationships e ha
    rw [XLRelationships.DeleteRelationship_ref_error s id v e hv ha]
    refine ⟨?_, ?_, ?_⟩
    · simp [h1, h2, IdNotFound]
    · intro e' he'
      injection he' with he'
      exact ⟨by rw [← he', h1]; rfl, rfl⟩
    · intro hmem; exact absurd hmem h2
  | ok item =>
    have hmem : v ∈ StdMap.keys s.m_relationships :=
      List.mem_map.mpr ⟨(v, item), StdMap.at_ok_mem v _ item ha, rfl⟩
    obtain ⟨v', _, heq⟩ := XLRelationships.DeleteRelationship_ref_ok s id v item hv ha
    rw [heq]
    refine ⟨?_, ?_, ?_⟩
    · simp [hmem]
    · intro e' he'; cases he'
    · intro _; rfl

theorem RelationshipByTarget_loop_ok (t : String) (m : StdMap) (e : XLRelationshipItem)
    (h : XLRelationships.RelationshipByTarget.loop t m = .ok e) :
    (∃ k, (k, e) ∈ m) ∧ e.Target = t := by
  induction m with
  | nil => simp [XLRelationships.RelationshipByTarget.loop] at h
  | cons p rest ih =>
    unfold XLRelationships.RelationshipByTarget.loop at h
    by_cases hp : p.2.Target = t
    · rw [if_pos hp] at h
      injection h with h
      rw [← h]
      exact ⟨⟨p.1, List.mem_cons_self _ _⟩, hp⟩
    · rw [if_neg hp] at h
      obtain ⟨⟨k, hk⟩, ht⟩ := ih h
      exact ⟨⟨k, List.mem_cons_of_mem _ hk⟩, ht⟩

theorem RelationshipByTarget_loop_error (t : String) (m : StdMap) (err : XLError)
    (h : XLRelationships.RelationshipByTarget.loop t m = .error err) :
    err = TargetNotFound ∧ ∀ p ∈ m, p.2.Target ≠ t := by
  induction m with
  | nil =>
    simp only [XLRelationships.RelationshipByTarget.loop, Except.error.injEq] at h
    exact ⟨h.symm, fun p hp => by simp at hp⟩
  | cons p rest ih =>
    unfold XLRelationships.RelationshipByTarget.loop at h
    by_cases hp : p.2.Target = t
    · rw [if_pos hp] at h; cases h
    · rw [if_neg hp] at h
      obtain ⟨h1, h2⟩ := ih h
      refine ⟨h1, fun q hq => ?_⟩
      rcases List.mem_cons.mp hq with hq | hq
      · rw [hq]; exact hp
      · exact h2 q hq

/-- C8: for every registry state and every string t: if some entry of the index has
`Target()` = t then `RelationshipByTarget(t)` succeeds and the entry it returns is in
the index and has `Target()` = t; if no entry of the index has `Target()` = t then
`RelationshipByTarget(t)` fails with the `range_error`
"Relationship with Target does not exist" (TargetNotFound). -/
theorem lookup_by_target (s : XLRelationships) (t : String) :
    ((∃ p ∈ s.m_relationships, p.2.Target = t) →
      ∃ e : XLRelationshipItem, s.RelationshipByTarget t = .ok e ∧
        (∃ k, (k, e) ∈ s.m_relationships) ∧ e.Target = t) ∧
    ((¬ ∃ p ∈ s.m_relationships, p.2.Target = t) →
      s.RelationshipByTarget t =
        .error (.range_error "Relationship with Target does not exist")) := by
  unfold XLRelationships.RelationshipByTarget XLRelationships.Relationships
  cases hr : XLRelationships.RelationshipByTarget.loop t s.m_relationships with
  | ok e =>
    obtain ⟨h1, h2⟩ := RelationshipByTarget_loop_ok t _ e hr
    refine ⟨fun _ => ⟨e, rfl, h1, h2⟩, fun hno => ?_⟩
    obtain ⟨k, hk⟩ := h1
    exact absurd ⟨(k, e), hk, h2⟩ hno
  | error err =>
    obtain ⟨h1, h2⟩ := RelationshipByTarget_loop_error t _ err hr
    refine ⟨fun ⟨p, hp, hpt⟩ => absurd hpt (h2 p hp), fun _ => ?_⟩
    rw [h1]; rfl

/-! ## The node that `AddRelationship` appends -/

/-- C9: for every known type ty and target t, a successful `AddRelationship(ty, t)`
appends one node as the last child of the backing tree's root; the node carries the
attributes Id = the returned id, Type = the URI of ty and Target = t, in this order,
followed by TargetMode="External" when ty = `ExternalLinkPath` and by nothing
otherwise; so it has a TargetMode attribute, with the value "External", if and only if
ty = `ExternalLinkPath`, and for each other known type it has none. -/
theorem added_node_attributes (s : XLRelationships) (ty : XLRelationshipType) (t : String)
    (h : ty ∈ knownTypes) :
    ∃ (e : XLRelationshipItem) (u : String) (node : XMLNode),
      (s.AddRelationship ty t).2 = .ok e ∧ ToUri ty = .ok u ∧
      (s.AddRelationship ty t).1.m_xmlDocument.children =
        s.m_xmlDocument.children ++ [node] ∧
      e.m_relationshipNode = some node.handle ∧
      node.attributes =
        [⟨"Id", e.Id⟩, ⟨"Type", u⟩, ⟨"Target", t⟩] ++
          (if ty = XLRelationshipType.ExternalLinkPath then [⟨"TargetMode", "External"⟩]
           else []) ∧
      node.attribute "Id" = some ⟨"Id", e.Id⟩ ∧
      node.attribute "Type" = some ⟨"Type", u⟩ ∧
      node.attribute "Target" = some ⟨"Target", t⟩ ∧
      (node.attribute "TargetMode" = some ⟨"TargetMode", "External"⟩ ↔
        ty = XLRelationshipType.ExternalLinkPath) ∧
      (ty ≠ XLRelationshipType.ExternalLinkPath → node.attribute "TargetMode" = none) := by
  obtain ⟨u, hu⟩ := ToUri_of_mem_knownTypes ty h
  rw [XLRelationships.AddRelationship_ok s ty t u hu]
  refine ⟨s.newItem ty t, u, s.newNode ty t u, rfl, hu, rfl, rfl, rfl, ?_, ?_, ?_, ?_, ?_⟩
  · simp [XMLNode.attribute, XLRelationships.newNode, XLRelationships.newItem,
      XLRelationshipItem.Id]
  · simp [XMLNode.attribute, XLRelationships.newNode]
  · simp [XMLNode.attribute, XLRelationships.newNode]
  · by_cases hx : ty = XLRelationshipType.ExternalLinkPath
    · simp [XMLNode.attribute, XLRelationships.newNode, hx]
    · simp [XMLNode.attribute, XLRelationships.newNode, hx]
  · intro hx
    simp [XMLNode.attribute, XLRelationships.newNode, hx]

set_option maxRecDepth 100000 in
/-- Witness of C9: an external link path added to `sampleRegistry`. -/
theorem added_node_attributes_witness :
    XLRelationshipType.ExternalLinkPath ∈ knownTypes ∧
    ∃ (e : XLRelationshipItem) (u : String) (node : XMLNode),
      (sampleRegistry.AddRelationship .ExternalLinkPath "file:///book.xlsx").2 = .ok e ∧
      ToUri .ExternalLinkPath = .ok u ∧
      (sampleRegistry.AddRelationship .ExternalLinkPath
        "file:///book.xlsx").1.m_xmlDocument.children =
        sampleRegistry.m_xmlDocument.children ++ [node] ∧
      e.m_relationshipNode = some node.handle ∧
      node.attributes =
        [⟨"Id", e.Id⟩, ⟨"Type", u⟩, ⟨"Target", "file:///book.xlsx"⟩] ++
          (if XLRelationshipType.ExternalLinkPath = XLRelationshipType.ExternalLinkPath then
            [⟨"TargetMode", "External"⟩]
           else []) ∧
      node.attribute "Id" = some ⟨"Id", e.Id⟩ ∧
      node.attribute "Type" = some ⟨"Type", u⟩ ∧
      node.attribute "Target" = some ⟨"Target", "file:///book.xlsx"⟩ ∧
      (node.attribute "TargetMode" = some ⟨"TargetMode", "External"⟩ ↔
        XLRelationshipType.ExternalLinkPath = XLRelationshipType.ExternalLinkPath) ∧
      (XLRelationshipType.ExternalLinkPath ≠ XLRelationshipType.ExternalLinkPath →
        node.attribute "TargetMode" = none) :=
  ⟨by decide,
   added_node_attributes sampleRegistry .ExternalLinkPath "file:///book.xlsx" (by decide)⟩

/-! ## The two directions of the type resolver -/

theorem FromUri_ToUri_of_known (ty : XLRelationshipType) (u : String)
    (h : ToUri ty = .ok u) : FromUri u = ty := by
  cases ty <;>
    first
    | (rw [ToUri_Unknown] at h; cases h)
    | (injection h with h; rw [← h]; decide)

set_option maxRecDepth 100000 in
/-- C10: the type-to-URI mapping of `AddRelationship` and the URI-to-type mapping of
`ParseXMLData` are mutually inverse on the closed set: there are 21 known types, each
has a URI, and the type of that URI is the type again; so the URIs of two different
known types differ, and the URI of a known type never resolves to `Unknown`. -/
theorem FromUri_inverts_ToUri :
    knownTypes.length = 21 ∧ knownTypes.Nodup ∧
    (∀ ty ∈ knownTypes, ∃ u, ToUri ty = .ok u ∧ FromUri u = ty) ∧
    (∀ ty1 ∈ knownTypes, ∀ ty2 ∈ knownTypes, ToUri ty1 = ToUri ty2 → ty1 = ty2) ∧
    (∀ ty ∈ knownTypes, ∀ u, ToUri ty = .ok u → FromUri u ≠ XLRelationshipType.Unknown) := by
  refine ⟨rfl, by decide, ?_, ?_, ?_⟩
  · intro ty hty
    obtain ⟨u, hu⟩ := ToUri_of_mem_knownTypes ty hty
    exact ⟨u, hu, FromUri_ToUri_of_known ty u hu⟩
  · intro ty1 h1 ty2 _ heq
    obtain ⟨u, hu⟩ := ToUri_of_mem_knownTypes ty1 h1
    have h3 := FromUri_ToUri_of_known ty1 u hu
    rw [heq] at hu
    rw [← h3, FromUri_ToUri_of_known ty2 u hu]
  · intro ty hty u hu
    rw [FromUri_ToUri_of_known ty u hu]
    exact (mem_knownTypes_iff ty).mp hty

/-! ## `Load` returns on every tree whose nodes have the three attributes -/

theorem ParseXMLData_loop_returns (nodes : List XMLNode) :
    ∀ m : StdMap, (∀ n ∈ nodes, n.HasRelationshipAttributes) →
      ∃ m', XLRelationships.ParseXMLData.loop nodes m = (m', .ok ()) := by
  induction nodes with
  | nil => intro m _; exact ⟨m, rfl⟩
  | cons n rest ih =>
    intro m h
    obtain ⟨h1, h2, h3⟩ := h n (List.mem_cons_self _ _)
    obtain ⟨a1, ha1⟩ := Option.isSome_iff_exists.mp h1
    obtain ⟨a2, ha2⟩ := Option.isSome_iff_exists.mp h2
    obtain ⟨a3, ha3⟩ := Option.isSome_iff_exists.mp h3
    unfold XLRelationships.ParseXMLData.loop
    simp only [ha1, ha2, ha3]
    exact ih _ (fun k hk => h k (List.mem_cons_of_mem _ hk))

theorem Load_returns (tree : XMLDocument)
    (h : ∀ n ∈ tree.children, n.HasRelationshipAttributes) :
    ∃ reg, XLRelationships.Load tree = .ok reg := by
  obtain ⟨m, hm⟩ := ParseXMLData_loop_returns tree.children [] h
  simp [XLRelationships.Load, XLRelationships.ParseXMLData, hm]

/-! ## Instances of the unconditional properties -/

/-- Instance of C5 on `sampleRegistry`: adding with the `Unknown` type throws and leaves
the registry as it was; adding a theme does not throw. -/
theorem add_fails_iff_type_unknown_witness :
    (sampleRegistry.AddRelationship .Unknown "x").2 = .error UnrecognizedType ∧
    (sampleRegistry.AddRelationship .Unknown "x").1 = sampleRegistry ∧
    ¬ (sampleRegistry.AddRelationship .Theme "theme/theme1.xml").2 =
      .error UnrecognizedType :=
  ⟨(add_fails_iff_type_unknown sampleRegistry .Unknown "x").1.mpr (by decide),
   ((add_fails_iff_type_unknown sampleRegistry .Unknown "x").2.2 _ rfl).2,
   fun h => (add_fails_iff_type_unknown sampleRegistry .Theme "theme/theme1.xml").1.mp h
     (by decide)⟩

set_option maxRecDepth 100000 in
/-- Witness of C7 on `sampleRegistry`: deleting the absent "rId9" throws and leaves the
registry as it was; deleting the present "rId1" succeeds, by a string of the caller's
own and through the reference that `Id()` of the entry returns. -/
theorem delete_fails_iff_id_absent_witness :
    StringRef.read sampleRegistry.m_relationships (.value "rId9") = some "rId9" ∧
    StringRef.read sampleRegistry.m_relationships (.idOf "rId1") = some "rId1" ∧
    (sampleRegistry.DeleteRelationship (.value "rId9")).2 = .error IdNotFound ∧
    (sampleRegistry.DeleteRelationship (.value "rId9")).1 = sampleRegistry ∧
    (sampleRegistry.DeleteRelationship (.value "rId1")).2 = .ok () ∧
    (sampleRegistry.DeleteRelationship (.idOf "rId1")).2 = .ok () :=
  ⟨rfl, rfl,
   (delete_fails_iff_id_absent sampleRegistry (.value "rId9") "rId9" rfl).1.mpr (by decide),
   ((delete_fails_iff_id_absent sampleRegistry (.value "rId9") "rId9" rfl).2.1 _ rfl).2,
   (delete_fails_iff_id_absent sampleRegistry (.value "rId1") "rId1" rfl).2.2 (by decide),
   (delete_fails_iff_id_absent sampleRegistry (.idOf "rId1") "rId1" rfl).2.2 (by decide)⟩

set_option maxRecDepth 100000 in
/-- Instance of C8 on `sampleRegistry`: the target "vendor.xml" is found, the target
"missing.xml" is not. -/
theorem lookup_by_target_witness :
    (∃ e : XLRelationshipItem, sampleRegistry.RelationshipByTarget "vendor.xml" = .ok e ∧
      (∃ k, (k, e) ∈ sampleRegistry.m_relationships) ∧ e.Target = "vendor.xml") ∧
    sampleRegistry.RelationshipByTarget "missing.xml" =
      .error (.range_error "Relationship with Target does not exist") :=
  ⟨(lookup_by_target sampleRegistry "vendor.xml").1
     ⟨("rId2", ⟨some 1, XLRelationshipType.Unknown, "vendor.xml", "rId2"⟩), by decide, rfl⟩,
   (lookup_by_target sampleRegistry "missing.xml").2 (by decide)⟩

/-! ## The URI-to-type direction of the resolver -/

theorem ite_eq_elim {α : Type} {c : Prop} [Decidable c] {a b x : α}
    (h : (if c then a else b) = x) : (c ∧ a = x) ∨ (¬ c ∧ b = x) := by
  by_cases hc : c
  · rw [if_pos hc] at h; exact Or.inl ⟨hc, h⟩
  · rw [if_neg hc] at h; exact Or.inr ⟨hc, h⟩

theorem FromUri_Unknown_or_ToUri (u : String) (ty : XLRelationshipType) (h : FromUri u = ty) :
    ty = XLRelationshipType.Unknown ∨ ToUri ty = .ok u := by
  unfold FromUri at h
  iterate 21
    rcases ite_eq_elim h with ⟨hc, hx⟩ | ⟨-, h⟩
    · right; subst hx; subst hc; rfl
  left; exact h.symm

/-- C11: the URI-to-type resolution of `ParseXMLData` is a total function; for every
string u it returns `Unknown` exactly when u is not the URI of one of the 21 known
types, the comparison being equality of strings; and whenever it returns a type ty
other than `Unknown`, the URI of ty is u. -/
theorem FromUri_total_and_exact (u : String) :
    (∃ ty, FromUri u = ty) ∧
    (FromUri u = XLRelationshipType.Unknown ↔ ∀ ty ∈ knownTypes, ToUri ty ≠ .ok u) ∧
    (∀ ty, FromUri u = ty → ty ≠ XLRelationshipType.Unknown → ToUri ty = .ok u) := by
  refine ⟨⟨_, rfl⟩, ⟨fun h ty hty hu => ?_, fun h => ?_⟩, fun ty hty hne => ?_⟩
  · have h2 := FromUri_ToUri_of_known ty u hu
    rw [h] at h2
    exact (mem_knownTypes_iff ty).mp hty h2.symm
  · rcases FromUri_Unknown_or_ToUri u _ rfl with h1 | h1
    · exact h1
    · by_contra hne
      exact h (FromUri u) ((mem_knownTypes_iff _).mpr hne) h1
  · rcases FromUri_Unknown_or_ToUri u ty hty with h1 | h1
    · exact absurd h1 hne
    · exact h1

set_option maxRecDepth 100000 in
/-- Instance of C11: the worksheet URI resolves to `Worksheet`; the same URI with an
upper-case scheme, or with a trailing slash, resolves to `Unknown`. -/
theorem FromUri_total_and_exact_witness :
    ToUri (FromUri
      "http://schemas.openxmlformats.org/officeDocument/2006/relationships/worksheet") =
      .ok "http://schemas.openxmlformats.org/officeDocument/2006/relationships/worksheet" ∧
    FromUri "HTTP://schemas.openxmlformats.org/officeDocument/2006/relationships/worksheet" =
      XLRelationshipType.Unknown ∧
    FromUri "http://schemas.openxmlformats.org/officeDocument/2006/relationships/worksheet/" =
      XLRelationshipType.Unknown ∧
    ∀ ty ∈ knownTypes, ToUri ty ≠
      .ok "HTTP://schemas.openxmlformats.org/officeDocument/2006/relationships/worksheet" :=
  ⟨(FromUri_total_and_exact _).2.2 .Worksheet (by decide) (by decide),
   by decide, by decide,
   (FromUri_total_and_exact _).2.1.mp (by decide)⟩

/-! ## `XLRelationshipItem::Delete` -/

theorem filter_handle_split (pre post : List XMLNode) (n : XMLNode)
    (h : ((pre ++ n :: post).map XMLNode.handle).Nodup) :
    (pre ++ n :: post).filter (fun k => k.handle ≠ n.handle) = pre ++ post := by
  rw [List.map_append, List.map_cons, List.nodup_append] at h
  obtain ⟨_, h2, h3⟩ := h
  rw [List.nodup_cons] at h2
  have hpre : ∀ k ∈ pre, k.handle ≠ n.handle := by
    intro k hk heq
    exact h3 (List.mem_map_of_mem _ hk) (by rw [heq]; exact List.mem_cons_self _ _)
  have hpost : ∀ k ∈ post, k.handle ≠ n.handle := by
    intro k hk heq
    exact h2.1 (by rw [← heq]; exact List.mem_map_of_mem _ hk)
  rw [List.filter_append, List.filter_cons]
  have e1 : pre.filter (fun k => decide (k.handle ≠ n.handle)) = pre :=
    List.filter_eq_self.mpr (fun k hk => by simpa using hpre k hk)
  have e2 : post.filter (fun k => decide (k.handle ≠ n.handle)) = post :=
    List.filter_eq_self.mpr (fun k hk => by simpa using hpost k hk)
  rw [e1, e2]
  simp

/-- C14: `XLRelationshipItem::Delete` leaves a safe state and is idempotent: applied to
an entry and a tree it leaves the entry with `Id()` = "", `Target()` = "",
`Type()` = `Unknown` and no bound node; if the entry was bound to a node, the tree loses
the node with that handle, and where that node is in a tree of distinct handles, exactly
that one node goes and the others keep their order; applied again to the entry and the
tree that the first call left, it changes neither. -/
theorem item_delete_idempotent (e : XLRelationshipItem) (doc : XMLDocument) :
    (e.Delete doc).1.Id = "" ∧ (e.Delete doc).1.Target = "" ∧
    (e.Delete doc).1.Type_ = XLRelationshipType.Unknown ∧
    (e.Delete doc).1.m_relationshipNode = none ∧
    (∀ h, e.m_relationshipNode = some h → (e.Delete doc).2 = doc.deleteNode h) ∧
    (e.m_relationshipNode = none → (e.Delete doc).2 = doc) ∧
    (∀ (pre post : List XMLNode) (n : XMLNode), e.m_relationshipNode = some n.handle →
      doc.children = pre ++ n :: post → (doc.children.map XMLNode.handle).Nodup →
      (e.Delete doc).2.children = pre ++ post) ∧
    (e.Delete doc).1.Delete (e.Delete doc).2 = e.Delete doc := by
  refine ⟨rfl, rfl, rfl, rfl, ?_, ?_, ?_, rfl⟩
  · intro h hh
    simp [XLRelationshipItem.Delete, hh]
  · intro hh
    simp [XLRelationshipItem.Delete, hh]
  · intro pre post n hn hc hnd
    rw [hc] at hnd
    simp only [XLRelationshipItem.Delete, hn, XMLDocument.deleteNode, hc]
    exact filter_handle_split pre post n hnd

set_option maxRecDepth 100000 in
/-- Instance of C14: the entry "rId1" of `sampleRegistry`, bound to the first node of
`sampleTree`; the first `Delete` leaves the second node only, the second `Delete`
changes nothing. -/
theorem item_delete_idempotent_witness :
    (XLRelationshipItem.Delete ⟨some 0, .Styles, "styles.xml", "rId1"⟩ sampleTree).2.children
      = [] ++ [{ handle := 1, name := "Relationship",
                 attributes := [⟨"Id", "rId2"⟩, ⟨"Type", "http://example.org/vendor"⟩,
                                ⟨"Target", "vendor.xml"⟩] }] ∧
    (XLRelationshipItem.Delete ⟨some 0, .Styles, "styles.xml", "rId1"⟩ sampleTree).1 =
      ⟨none, .Unknown, "", ""⟩ ∧
    XLRelationshipItem.Delete ⟨none, .Unknown, "", ""⟩
      (XLRelationshipItem.Delete ⟨some 0, .Styles, "styles.xml", "rId1"⟩ sampleTree).2 =
      (⟨none, .Unknown, "", ""⟩,
       (XLRelationshipItem.Delete ⟨some 0, .Styles, "styles.xml", "rId1"⟩ sampleTree).2) :=
  ⟨(item_delete_idempotent ⟨some 0, .Styles, "styles.xml", "rId1"⟩ sampleTree).2.2.2.2.2.2.1
     [] _ _ rfl rfl (by decide),
   rfl,
   (item_delete_idempotent ⟨some 0, .Styles, "styles.xml", "rId1"⟩ sampleTree).2.2.2.2.2.2.2⟩

/-! ## Id collision after a load with non-contiguous ids -/

set_option maxRecDepth 100000 in
/-- C18: there is a backing tree with non-contiguous ids, the single node "rId2" of
`gapTree`, after whose `Load` the counter is 1, so that the next successful
`AddRelationship` allocates "rId2", already a key of the index; the add overwrites the
index entry (the index still has one entry, now bound to the new node) while the old
node stays in the tree, which then has two nodes with the Id attribute "rId2". The same
happens on `skipTree`, with the ids "rId1" and "rId3": the add allocates "rId3". -/
theorem add_after_load_can_collide :
    (∃ reg e, XLRelationships.Load gapTree = .ok reg ∧
      "rId2" ∈ StdMap.keys reg.m_relationships ∧
      (reg.AddRelationship .Worksheet "worksheets/sheet1.xml").2 = .ok e ∧
      e.Id = "rId2" ∧
      (reg.AddRelationship .Worksheet "worksheets/sheet1.xml").1.m_relationships =
        [("rId2", ⟨some 1, .Worksheet, "worksheets/sheet1.xml", "rId2"⟩)] ∧
      reg.m_relationships = [("rId2", ⟨some 0, .Styles, "styles.xml", "rId2"⟩)] ∧
      (reg.AddRelationship .Worksheet
        "worksheets/sheet1.xml").1.m_xmlDocument.children.map XMLNode.idValue =
        [some "rId2", some "rId2"] ∧
      (reg.AddRelationship .Worksheet
        "worksheets/sheet1.xml").1.m_xmlDocument.children.map XMLNode.handle = [0, 1]) ∧
    (∃ reg e, XLRelationships.Load skipTree = .ok reg ∧
      "rId3" ∈ StdMap.keys reg.m_relationships ∧
      (reg.AddRelationship .Worksheet "worksheets/sheet1.xml").2 = .ok e ∧
      e.Id = "rId3" ∧
      StdMap.keys (reg.AddRelationship .Worksheet
        "worksheets/sheet1.xml").1.m_relationships = ["rId1", "rId3"] ∧
      (reg.AddRelationship .Worksheet
        "worksheets/sheet1.xml").1.m_xmlDocument.children.map XMLNode.idValue =
        [some "rId1", some "rId3", some "rId3"]) := by
  refine ⟨⟨_, _, rfl, ?_, rfl, ?_, ?_, ?_, ?_, ?_⟩, ⟨_, _, rfl, ?_, rfl, ?_, ?_, ?_⟩⟩ <;> decide

/-! ## The loop of `ParseXMLData` as a sequence of insertions -/

theorem relationship?_eq_some {n : XMLNode} {p : String × XLRelationshipItem}
    (h : n.relationship? = some p) :
    ∃ ty tg, n.attribute "Type" = some ty ∧ n.attribute "Target" = some tg ∧
      n.idValue = some p.1 ∧
      p.2 = ⟨some n.handle, FromUri ty.value, tg.value, p.1⟩ := by
  unfold XMLNode.relationship? at h
  cases h1 : n.attribute "Type" with
  | none => simp [h1] at h
  | some a1 =>
    cases h2 : n.attribute "Target" with
    | none => simp [h1, h2] at h
    | some a2 =>
      cases h3 : n.attribute "Id" with
      | none => simp [h1, h2, h3] at h
      | some a3 =>
        simp only [h1, h2, h3, Option.some.injEq] at h
        refine ⟨a1, a2, rfl, rfl, ?_, ?_⟩
        · rw [← h]; simp [XMLNode.idValue, h3]
        · rw [← h]; rfl

theorem relationship?_eq_none {n : XMLNode} (h : n.relationship? = none) (rest : List XMLNode)
    (m : StdMap) :
    XLRelationships.ParseXMLData.loop (n :: rest) m = (m, .error .null_dereference) := by
  unfold XMLNode.relationship? at h
  unfold XLRelationships.ParseXMLData.loop
  cases h1 : n.attribute "Type" with
  | none => rfl
  | some a1 =>
    cases h2 : n.attribute "Target" with
    | none => rfl
    | some a2 =>
      cases h3 : n.attribute "Id" with
      | none => rfl
      | some a3 => simp [h1, h2, h3] at h

theorem loop_cons_some {n : XMLNode} {p : String × XLRelationshipItem}
    (h : n.relationship? = some p) (rest : List XMLNode) (m : StdMap) :
    XLRelationships.ParseXMLData.loop (n :: rest) m =
      XLRelationships.ParseXMLData.loop rest (StdMap.insert_or_assign p.1 p.2 m) := by
  unfold XMLNode.relationship? at h
  cases h1 : n.attribute "Type" with
  | none => simp [h1] at h
  | some a1 =>
    cases h2 : n.attribute "Target" with
    | none => simp [h1, h2] at h
    | some a2 =>
      cases h3 : n.attribute "Id" with
      | none => simp [h1, h2, h3] at h
      | some a3 =>
        simp only [h1, h2, h3, Option.some.injEq] at h
        rw [XLRelationships.ParseXMLData.loop]
        simp only [h1, h2, h3]
        rw [← h]

theorem loop_eq_insertAll (nodes : List XMLNode) :
    ∀ m m' : StdMap, XLRelationships.ParseXMLData.loop nodes m = (m', .ok ()) →
      ∃ ps : List (String × XLRelationshipItem),
        nodes.map XMLNode.relationship? = ps.map some ∧ m' = StdMap.insertAll ps m := by
  induction nodes with
  | nil =>
    intro m m' h
    simp only [XLRelationships.ParseXMLData.loop, Prod.mk.injEq, and_true] at h
    exact ⟨[], rfl, h.symm⟩
  | cons n rest ih =>
    intro m m' h
    cases hr : n.relationship? with
    | none => rw [relationship?_eq_none hr] at h; simp at h
    | some p =>
      rw [loop_cons_some hr] at h
      obtain ⟨ps, h1, h2⟩ := ih _ _ h
      exact ⟨p :: ps, by simp [hr, h1], by rw [h2]; rfl⟩

theorem Load_eq_insertAll (tree : XMLDocument) (reg : XLRelationships)
    (h : XLRelationships.Load tree = .ok reg) :
    ∃ ps : List (String × XLRelationshipItem),
      tree.children.map XMLNode.relationship? = ps.map some ∧
      reg = { m_xmlDocument := tree
              m_relationships := StdMap.insertAll ps []
              m_relationshipCount := (StdMap.insertAll ps []).length
              m_savedData := tree.children
              m_isModified := false } := by
  unfold XLRelationships.Load XLRelationships.ParseXMLData at h
  simp only at h
  cases hl : XLRelationships.ParseXMLData.loop tree.children [] with
  | mk m r =>
    rw [hl] at h
    cases r with
    | error e => simp at h
    | ok u =>
      simp only [Except.ok.injEq] at h
      obtain ⟨ps, h1, h2⟩ := loop_eq_insertAll tree.children [] m hl
      refine ⟨ps, h1, ?_⟩
      rw [← h, h2]; rfl

namespace StdMap

theorem mem_keys_iff_at (k : String) (m : StdMap) :
    k ∈ keys m ↔ ∃ v, at_ k m = .ok v := by
  constructor
  · exact at_ok_of_mem_keys k m
  · rintro ⟨v, hv⟩
    exact List.mem_map.mpr ⟨(k, v), at_ok_mem k m v hv, rfl⟩

theorem mem_keys_insert (k k' : String) (v : XLRelationshipItem) (m : StdMap) :
    k' ∈ keys (insert_or_assign k v m) ↔ k' = k ∨ k' ∈ keys m := by
  rw [mem_keys_iff_at, mem_keys_iff_at]
  by_cases h : k' = k
  · rw [h, at_insert_self]; simp
  · rw [at_insert_of_ne h]; simp [h]

theorem insertAll_cons (p : String × XLRelationshipItem)
    (ps : List (String × XLRelationshipItem)) (m : StdMap) :
    insertAll (p :: ps) m = insertAll ps (insert_or_assign p.1 p.2 m) := rfl

theorem insertAll_append (ps qs : List (String × XLRelationshipItem)) (m : StdMap) :
    insertAll (ps ++ qs) m = insertAll qs (insertAll ps m) := by
  simp [insertAll, List.foldl_append]

theorem mem_keys_insertAll (ps : List (String × XLRelationshipItem)) :
    ∀ (m : StdMap) (k : String),
      k ∈ keys (insertAll ps m) ↔ k ∈ ps.map Prod.fst ∨ k ∈ keys m := by
  induction ps with
  | nil => intro m k; simp [insertAll]
  | cons p ps ih =>
    intro m k
    rw [insertAll_cons, ih, mem_keys_insert, List.map_cons, List.mem_cons]
    tauto

theorem sorted_insertAll (ps : List (String × XLRelationshipItem)) :
    ∀ m : StdMap, Sorted m → Sorted (insertAll ps m) := by
  induction ps with
  | nil => intro m h; exact h
  | cons p ps ih => intro m h; exact ih _ (sorted_insert _ _ _ h)

theorem at_insertAll_of_not_mem (i : String) (ps : List (String × XLRelationshipItem)) :
    ∀ m : StdMap, (∀ q ∈ ps, q.1 ≠ i) → at_ i (insertAll ps m) = at_ i m := by
  induction ps with
  | nil => intro m _; rfl
  | cons p ps ih =>
    intro m h
    rw [insertAll_cons, ih _ (fun q hq => h q (List.mem_cons_of_mem _ hq)),
      at_insert_of_ne (h p (List.mem_cons_self _ _)).symm]

theorem at_insertAll_last (pre post : List (String × XLRelationshipItem))
    (p : String × XLRelationshipItem) (m : StdMap) (h : ∀ q ∈ post, q.1 ≠ p.1) :
    at_ p.1 (insertAll (pre ++ p :: post) m) = .ok p.2 := by
  rw [insertAll_append, insertAll_cons, at_insertAll_of_not_mem _ _ _ h, at_insert_self]

theorem insert_perm (k : String) (v : XLRelationshipItem) (m : StdMap) (h : k ∉ keys m) :
    (insert_or_assign k v m).Perm ((k, v) :: m) := by
  induction m with
  | nil => exact List.Perm.refl _
  | cons p rest ih =>
    have hp : ¬ p.1 = k := fun heq => h (by simp [keys, heq.symm])
    have hrest : k ∉ keys rest := fun hk => h (by
      simp only [keys, List.map_cons, List.mem_cons]; exact Or.inr hk)
    unfold insert_or_assign
    by_cases h2 : keyLt k p.1 = true
    · rw [if_neg hp, if_pos h2]
    · rw [if_neg hp, if_neg h2]
      exact ((ih hrest).cons p).trans (List.Perm.swap _ _ _)

theorem insertAll_perm (ps : List (String × XLRelationshipItem)) :
    ∀ m : StdMap, (ps.map Prod.fst).Nodup → (∀ p ∈ ps, p.1 ∉ keys m) →
      (insertAll ps m).Perm (ps ++ m) := by
  induction ps with
  | nil => intro m _ _; exact List.Perm.refl _
  | cons p ps ih =>
    intro m hnd hm
    rw [List.map_cons, List.nodup_cons] at hnd
    rw [insertAll_cons]
    have h1 : ∀ q ∈ ps, q.1 ∉ keys (insert_or_assign p.1 p.2 m) := by
      intro q hq hk
      rcases (mem_keys_insert _ _ _ _).mp hk with hk | hk
      · exact hnd.1 (by rw [← hk]; exact List.mem_map_of_mem _ hq)
      · exact hm q (List.mem_cons_of_mem _ hq) hk
    refine (ih _ hnd.2 h1).trans ?_
    refine (List.Perm.append_left ps
      (insert_perm p.1 p.2 m (hm p (List.mem_cons_self _ _)))).trans ?_
    exact List.perm_middle

end StdMap

theorem exists_last_with {α : Type} (P : α → Prop) (l : List α) (h : ∃ x ∈ l, P x) :
    ∃ pre x post, l = pre ++ x :: post ∧ P x ∧ ∀ y ∈ post, ¬ P y := by
  induction l with
  | nil => obtain ⟨x, hx, _⟩ := h; simp at hx
  | cons a l ih =>
    by_cases hl : ∃ x ∈ l, P x
    · obtain ⟨pre, x, post, h1, h2, h3⟩ := ih hl
      exact ⟨a :: pre, x, post, by rw [h1]; rfl, h2, h3⟩
    · obtain ⟨x, hx, hpx⟩ := h
      rcases List.mem_cons.mp hx with hx | hx
      · refine ⟨[], a, l, rfl, by rw [← hx]; exact hpx, fun y hy hpy => hl ⟨y, hy, hpy⟩⟩
      · exact absurd ⟨x, hx, hpx⟩ hl

/-! ## What `Load` puts in the index -/

theorem ids_of_relationships (nodes : List XMLNode) :
    ∀ ps : List (String × XLRelationshipItem),
      nodes.map XMLNode.relationship? = ps.map some →
      nodes.map XMLNode.idValue = ps.map (fun p => some p.1) := by
  induction nodes with
  | nil =>
    intro ps h
    cases ps with
    | nil => rfl
    | cons p ps => simp at h
  | cons n rest ih =>
    intro ps h
    cases ps with
    | nil => simp at h
    | cons p ps =>
      simp only [List.map_cons, List.cons.injEq] at h ⊢
      obtain ⟨_, _, _, _, h3, _⟩ := relationship?_eq_some h.1
      exact ⟨h3, ih ps h.2⟩

theorem split_relationships (pre post : List XMLNode) (n : XMLNode)
    (ps : List (String × XLRelationshipItem))
    (h : (pre ++ n :: post).map XMLNode.relationship? = ps.map some) :
    ∃ pre' p post', ps = pre' ++ p :: post' ∧
      pre.map XMLNode.relationship? = pre'.map some ∧ n.relationship? = some p ∧
      post.map XMLNode.relationship? = post'.map some := by
  rw [List.map_append, List.map_cons] at h
  obtain ⟨l1, l2, h1, h2, h3⟩ := List.map_eq_append_iff.mp h.symm
  obtain ⟨p, l3, h4, h5, h6⟩ := List.map_eq_cons_iff.mp h3
  exact ⟨l1, p, l3, by rw [h1, h4], h2.symm, h5.symm, h6.symm⟩

theorem keys_insertAll_dedup (nodes : List XMLNode) (ps : List (String × XLRelationshipItem))
    (h : nodes.map XMLNode.relationship? = ps.map some) :
    (StdMap.keys (StdMap.insertAll ps [])).Nodup ∧
    (∀ k, k ∈ StdMap.keys (StdMap.insertAll ps []) ↔ some k ∈ nodes.map XMLNode.idValue) ∧
    (StdMap.insertAll ps []).length = (nodes.map XMLNode.idValue).dedup.length := by
  have hnd : (StdMap.keys (StdMap.insertAll ps [])).Nodup :=
    StdMap.sorted_keys_nodup _ (StdMap.sorted_insertAll ps [] List.Pairwise.nil)
  have hmem : ∀ k, k ∈ StdMap.keys (StdMap.insertAll ps []) ↔
      some k ∈ nodes.map XMLNode.idValue := by
    intro k
    rw [StdMap.mem_keys_insertAll, ids_of_relationships nodes ps h]
    simp [StdMap.keys]
  refine ⟨hnd, hmem, ?_⟩
  have hperm : ((StdMap.keys (StdMap.insertAll ps [])).map some).Perm
      (nodes.map XMLNode.idValue).dedup := by
    rw [List.perm_ext_iff_of_nodup
      ((List.nodup_map_iff (Option.some_injective _)).mpr hnd) (List.nodup_dedup _)]
    intro o
    rw [List.mem_dedup]
    constructor
    · intro ho
      obtain ⟨k, hk, hko⟩ := List.mem_map.mp ho
      rw [← hko]; exact (hmem k).mp hk
    · intro ho
      rw [ids_of_relationships nodes ps h] at ho
      obtain ⟨p, hp, hpo⟩ := List.mem_map.mp ho
      rw [← hpo]
      refine List.mem_map_of_mem _ ((hmem p.1).mpr ?_)
      rw [ids_of_relationships nodes ps h]
      exact List.mem_map_of_mem (fun p => some p.1) hp
  have := hperm.length_eq
  simpa [StdMap.keys] using this

/-- C15: `Load` is last-entry-wins on duplicate ids: for every backing tree that loads
and every id i carried by at least one top-level node, the tree splits at the last node
in document order whose Id attribute is i, and `RelationshipByID(i)` returns the entry
built from that node: bound to it, with the type that its Type attribute resolves to,
its Target attribute and the id i. The keys of the index are pairwise distinct and are
exactly the Id attribute values of the tree, so the index has exactly one entry per
distinct value. -/
theorem load_last_entry_wins (tree : XMLDocument) (reg : XLRelationships)
    (h : XLRelationships.Load tree = .ok reg) :
    (∀ i, some i ∈ tree.children.map XMLNode.idValue →
      ∃ (pre : List XMLNode) (n : XMLNode) (post : List XMLNode) (ty tg : XMLAttribute),
        tree.children = pre ++ n :: post ∧ n.idValue = some i ∧
        (∀ k ∈ post, k.idValue ≠ some i) ∧
        n.attribute "Type" = some ty ∧ n.attribute "Target" = some tg ∧
        reg.RelationshipByID i = .ok ⟨some n.handle, FromUri ty.value, tg.value, i⟩) ∧
    (StdMap.keys reg.m_relationships).Nodup ∧
    (∀ k, k ∈ StdMap.keys reg.m_relationships ↔
      some k ∈ tree.children.map XMLNode.idValue) ∧
    reg.m_relationships.length = (tree.children.map XMLNode.idValue).dedup.length := by
  obtain ⟨ps, hps, hreg⟩ := Load_eq_insertAll tree reg h
  rw [hreg]
  refine ⟨?_, keys_insertAll_dedup tree.children ps hps⟩
  intro i hi
  obtain ⟨n0, hn0, hi0⟩ := List.mem_map.mp hi
  obtain ⟨pre, n, post, hsplit, hn, hpost⟩ :=
    exists_last_with (fun k => k.idValue = some i) tree.children ⟨n0, hn0, hi0⟩
  rw [hsplit] at hps
  obtain ⟨pre', p, post', hps', _, hp, hpost'⟩ := split_relationships pre post n ps hps
  obtain ⟨ty, tg, h1, h2, h3, h4⟩ := relationship?_eq_some hp
  have hpi : p.1 = i := by rw [hn] at h3; exact (Option.some.inj h3).symm
  have hq : ∀ q ∈ post', q.1 ≠ p.1 := by
    intro q hq heq
    have hmem : some q.1 ∈ post.map XMLNode.idValue := by
      rw [ids_of_relationships post post' hpost']
      exact List.mem_map_of_mem (fun p => some p.1) hq
    obtain ⟨k, hk, hkq⟩ := List.mem_map.mp hmem
    exact hpost k hk (by rw [hkq, heq, hpi])
  refine ⟨pre, n, post, ty, tg, hsplit, hn, hpost, h1, h2, ?_⟩
  show StdMap.at_ i (StdMap.insertAll ps []) = _
  rw [hps', ← hpi, StdMap.at_insertAll_last pre' post' p [] hq, h4]

set_option maxRecDepth 100000 in
/-- Witness of C15 on `duplicateTree`, whose two nodes share the id "rId1": the entry
comes from the second node. -/
theorem load_last_entry_wins_witness :
    XLRelationships.Load duplicateTree = .ok duplicateRegistry ∧
    duplicateRegistry.RelationshipByID "rId1" =
      .ok ⟨some 1, .Theme, "theme/theme1.xml", "rId1"⟩ ∧
    (StdMap.keys duplicateRegistry.m_relationships).Nodup ∧
    (∀ k, k ∈ StdMap.keys duplicateRegistry.m_relationships ↔
      some k ∈ duplicateTree.children.map XMLNode.idValue) ∧
    duplicateRegistry.m_relationships.length =
      (duplicateTree.children.map XMLNode.idValue).dedup.length :=
  ⟨rfl, rfl, (load_last_entry_wins duplicateTree duplicateRegistry rfl).2⟩

/-! ## The counter after `Load` -/

/-- C16, as amended: after `Load` of any backing tree that loads, the allocation counter
equals the number of entries of the index, which is the number of distinct Id attribute
values among the top-level nodes and at most the number of nodes; it is the number n of
nodes when their ids are pairwise distinct, and then the first subsequent successful
`AddRelationship` returns the id "rId" ++ decimal(n + 1); in general it returns
"rId" ++ decimal(size of the index + 1). -/
theorem counter_after_load_is_index_size (tree : XMLDocument) (reg : XLRelationships)
    (h : XLRelationships.Load tree = .ok reg) :
    reg.m_relationshipCount = StdMap.size reg.m_relationships ∧
    reg.m_relationshipCount = (tree.children.map XMLNode.idValue).dedup.length ∧
    reg.m_relationshipCount ≤ tree.children.length ∧
    (∀ ty ∈ knownTypes, ∀ t, ∃ e, (reg.AddRelationship ty t).2 = .ok e ∧
      e.Id = "rId" ++ to_string (StdMap.size reg.m_relationships + 1)) ∧
    ((tree.children.map XMLNode.idValue).Nodup →
      reg.m_relationshipCount = tree.children.length ∧
      ∀ ty ∈ knownTypes, ∀ t, ∃ e, (reg.AddRelationship ty t).2 = .ok e ∧
        e.Id = "rId" ++ to_string (tree.children.length + 1)) := by
  obtain ⟨ps, hps, hreg⟩ := Load_eq_insertAll tree reg h
  obtain ⟨_, _, hlen⟩ := keys_insertAll_dedup tree.children ps hps
  have hcount : reg.m_relationshipCount = (tree.children.map XMLNode.idValue).dedup.length := by
    rw [hreg]; exact hlen
  have hsize : reg.m_relationshipCount = StdMap.size reg.m_relationships := by
    rw [hreg]; rfl
  have hadd : ∀ ty ∈ knownTypes, ∀ t, ∃ e, (reg.AddRelationship ty t).2 = .ok e ∧
      e.Id = "rId" ++ to_string (reg.m_relationshipCount + 1) := by
    intro ty hty t
    obtain ⟨u, hu⟩ := ToUri_of_mem_knownTypes ty hty
    rw [XLRelationships.AddRelationship_ok reg ty t u hu]
    exact ⟨_, rfl, rfl⟩
  refine ⟨hsize, hcount, ?_, ?_, ?_⟩
  · rw [hcount]
    have := (List.dedup_sublist (tree.children.map XMLNode.idValue)).length_le
    simpa using this
  · rw [← hsize]; exact hadd
  · intro hnd
    have hn : reg.m_relationshipCount = tree.children.length := by
      rw [hcount, hnd.dedup]; simp
    exact ⟨hn, by rw [← hn]; exact hadd⟩

set_option maxRecDepth 100000 in
/-- Witness of C16 as amended, on `sampleTree` with its two distinct ids: the counter is
2 and the next add of a worksheet returns "rId3". -/
theorem counter_after_load_is_index_size_witness :
    XLRelationships.Load sampleTree = .ok sampleRegistry ∧
    (sampleTree.children.map XMLNode.idValue).Nodup ∧
    sampleRegistry.m_relationshipCount = sampleTree.children.length ∧
    ∀ ty ∈ knownTypes, ∀ t, ∃ e, (sampleRegistry.AddRelationship ty t).2 = .ok e ∧
      e.Id = "rId" ++ to_string (sampleTree.children.length + 1) :=
  ⟨rfl, by decide,
   (counter_after_load_is_index_size sampleTree sampleRegistry rfl).2.2.2.2 (by decide)⟩

set_option maxRecDepth 100000 in
/-- C16 as stated fails: `duplicateTree` has two top-level nodes, both with the id
"rId1"; after `Load` the index has one entry and the counter is 1, not 2, and the first
subsequent `AddRelationship` returns "rId2", not "rId3". -/
theorem counter_after_load_of_duplicate_ids :
    XLRelationships.Load duplicateTree = .ok duplicateRegistry ∧
    duplicateTree.children.length = 2 ∧
    duplicateRegistry.m_relationshipCount = 1 ∧
    duplicateRegistry.m_relationshipCount ≠ duplicateTree.children.length ∧
    (duplicateRegistry.AddRelationship .Worksheet "worksheets/sheet1.xml").2 =
      .ok ⟨some 2, .Worksheet, "worksheets/sheet1.xml", "rId2"⟩ ∧
    "rId2" ≠ "rId" ++ to_string (duplicateTree.children.length + 1) := by
  refine ⟨rfl, rfl, rfl, by decide, rfl, by decide⟩

/-! ## Which entry `RelationshipByTarget` returns among several -/

theorem RelationshipByTarget_loop_least (t : String) (m : StdMap) (e : XLRelationshipItem)
    (hs : StdMap.Sorted m) (h : XLRelationships.RelationshipByTarget.loop t m = .ok e) :
    ∃ k, (k, e) ∈ m ∧
      ∀ p ∈ m, p.2.Target = t → p = (k, e) ∨ StdMap.keyLt k p.1 = true := by
  induction m with
  | nil => simp [XLRelationships.RelationshipByTarget.loop] at h
  | cons q rest ih =>
    unfold StdMap.Sorted at hs ih
    rw [List.pairwise_cons] at hs
    unfold XLRelationships.RelationshipByTarget.loop at h
    by_cases hq : q.2.Target = t
    · rw [if_pos hq] at h
      injection h with h
      refine ⟨q.1, by rw [← h]; exact List.mem_cons_self _ _, fun p hp _ => ?_⟩
      rcases List.mem_cons.mp hp with hp | hp
      · left; rw [hp, ← h]
      · right; exact hs.1 p hp
    · rw [if_neg hq] at h
      obtain ⟨k, hk, hall⟩ := ih hs.2 h
      refine ⟨k, List.mem_cons_of_mem _ hk, fun p hp hpt => ?_⟩
      rcases List.mem_cons.mp hp with hp | hp
      · rw [hp] at hpt; exact absurd hpt hq
      · exact hall p hp hpt

/-- Along plain calls (the part of C17 that the code keeps): in every registry state
reached from a `Load` by `AddRelationship` calls and `DeleteRelationship` calls on
strings of the caller's own, when one or several entries of the index have
`Target()` = t, `RelationshipByTarget(t)` returns the one of them whose id is smallest
in the order of the keys, the lexicographic order of the id strings: every other entry
with `Target()` = t has a lexicographically greater id, and none has a smaller one. -/
theorem lookup_by_target_returns_least_id_after_plain_calls (tree : XMLDocument)
    (reg : XLRelationships) (calls : List Call) (t : String)
    (h : XLRelationships.Load tree = .ok reg) (hplain : ∀ c ∈ calls, c.Plain)
    (hex : ∃ p ∈ (run reg calls).m_relationships, p.2.Target = t) :
    ∃ e : XLRelationshipItem,
      (run reg calls).RelationshipByTarget t = .ok e ∧
      e.Target = t ∧ (e.Id, e) ∈ (run reg calls).m_relationships ∧
      (∀ p ∈ (run reg calls).m_relationships, p.2.Target = t →
        p.2 = e ∨ e.Id.toList < p.2.Id.toList) ∧
      (∀ p ∈ (run reg calls).m_relationships, p.2.Target = t → ¬ p.2.Id < e.Id) := by
  obtain ⟨h1, h2, _⟩ := XLRelationships.run_IndexInv calls reg hplain
    (XLRelationships.Load_IndexInv tree reg h)
  cases he : XLRelationships.RelationshipByTarget.loop t (run reg calls).m_relationships with
  | error err =>
    obtain ⟨p, hp, hpt⟩ := hex
    exact absurd hpt ((RelationshipByTarget_loop_error t _ err he).2 p hp)
  | ok e =>
    obtain ⟨k, hk, hall⟩ := RelationshipByTarget_loop_least t _ e h1 he
    have hke : k = e.Id := h2 (k, e) hk
    have ht := (RelationshipByTarget_loop_ok t _ e he).2
    rw [hke] at hk hall
    refine ⟨e, he, ht, hk, fun p hp hpt => ?_, fun p hp hpt => ?_⟩
    · rcases hall p hp hpt with hpe | hlt
      · left; rw [hpe]
      · right
        rw [h2 p hp] at hlt
        simpa [StdMap.keyLt] using hlt
    · rcases hall p hp hpt with hpe | hlt
      · rw [hpe]; exact lt_irrefl _
      · rw [h2 p hp, StdMap.keyLt_iff] at hlt
        exact not_lt_of_lt hlt

set_option maxRecDepth 100000 in
/-- An instance on `sharedTargetTree`: with the entries "rId2" and "rId10" both
targeting "shared.xml", the entry "rId10" is returned: "rId10" is before "rId2" in the
lexicographic order, although 10 is after 2. -/
theorem lookup_by_target_returns_least_id_after_plain_calls_witness :
    XLRelationships.Load sharedTargetTree = .ok sharedTargetRegistry ∧
    (run sharedTargetRegistry []).RelationshipByTarget "shared.xml" =
      .ok ⟨some 1, .Chart, "shared.xml", "rId10"⟩ ∧
    "rId10".toList < "rId2".toList ∧
    ∃ e : XLRelationshipItem,
      (run sharedTargetRegistry []).RelationshipByTarget "shared.xml" = .ok e ∧
      e.Target = "shared.xml" ∧ (e.Id, e) ∈ (run sharedTargetRegistry []).m_relationships ∧
      (∀ p ∈ (run sharedTargetRegistry []).m_relationships, p.2.Target = "shared.xml" →
        p.2 = e ∨ e.Id.toList < p.2.Id.toList) ∧
      (∀ p ∈ (run sharedTargetRegistry []).m_relationships, p.2.Target = "shared.xml" →
        ¬ p.2.Id < e.Id) :=
  ⟨rfl, rfl, by decide,
   lookup_by_target_returns_least_id_after_plain_calls sharedTargetTree
     sharedTargetRegistry [] "shared.xml" rfl (by decide)
     ⟨("rId2", ⟨some 0, .Image, "shared.xml", "rId2"⟩), by decide, rfl⟩⟩

theorem relationship?_newNode (s : XLRelationships) (ty : XLRelationshipType) (t u : String)
    (h : ToUri ty = .ok u) :
    (s.newNode ty t u).relationship? =
      some ("rId" ++ to_string (s.m_relationshipCount + 1), s.newItem ty t) := by
  have hf := FromUri_ToUri_of_known ty u h
  have h1 : (s.newNode ty t u).attribute "Type" = some ⟨"Type", u⟩ := by
    simp [XMLNode.attribute, XLRelationships.newNode]
  have h2 : (s.newNode ty t u).attribute "Target" = some ⟨"Target", t⟩ := by
    simp [XMLNode.attribute, XLRelationships.newNode]
  have h3 : (s.newNode ty t u).attribute "Id" =
      some ⟨"Id", "rId" ++ to_string (s.m_relationshipCount + 1)⟩ := by
    simp [XMLNode.attribute, XLRelationships.newNode]
  unfold XMLNode.relationship?
  rw [h1, h2, h3]
  simp only [hf]
  rfl

theorem handle_injective_on {l : List XMLNode} (h : (l.map XMLNode.handle).Nodup)
    {a b : XMLNode} (ha : a ∈ l) (hb : b ∈ l) (hab : a.handle = b.handle) : a = b :=
  List.inj_on_of_nodup_map h ha hb hab

theorem HandlesDistinct_append (d : XMLDocument) (n : XMLNode) (h : d.HandlesDistinct)
    (hn : n.handle = d.nextHandle) :
    XMLDocument.HandlesDistinct
      { children := d.children ++ [n], nextHandle := d.nextHandle + 1 } := by
  obtain ⟨h1, h2⟩ := h
  constructor
  · show ((d.children ++ [n]).map XMLNode.handle).Nodup
    rw [List.map_append, List.nodup_append]
    refine ⟨h1, by simp, ?_⟩
    intro x hx hx'
    simp only [List.map_cons, List.map_nil, List.mem_singleton] at hx'
    obtain ⟨k, hk, hkx⟩ := List.mem_map.mp hx
    have := h2 k hk
    omega
  · intro k hk
    show k.handle < d.nextHandle + 1
    rcases List.mem_append.mp hk with hk | hk
    · have := h2 k hk; omega
    · simp only [List.mem_singleton] at hk
      rw [hk, hn]; omega

theorem HandlesDistinct_deleteNode (d : XMLDocument) (x : Nat) (h : d.HandlesDistinct) :
    (d.deleteNode x).HandlesDistinct := by
  obtain ⟨h1, h2⟩ := h
  constructor
  · exact List.Nodup.sublist ((List.filter_sublist _).map _) h1
  · intro k hk
    exact h2 k (List.mem_of_mem_filter hk)

theorem item_of_relationship? {n : XMLNode} {p : String × XLRelationshipItem}
    (h : n.relationship? = some p) : p.2.m_relationshipNode = some n.handle := by
  obtain ⟨_, _, _, _, _, h4⟩ := relationship?_eq_some h
  rw [h4]

namespace XLRelationships

theorem step_Bound (s : XLRelationships) (c : Call) (hc : c.Plain) (h : s.Bound) :
    (step s c).Bound := by
  obtain ⟨h1, h2⟩ := h
  cases c with
  | Add ty t =>
    show ((s.AddRelationship ty t).1).Bound
    cases hu : ToUri ty with
    | error e => rw [AddRelationship_error s ty t e hu]; exact ⟨h1, h2⟩
    | ok u =>
      rw [AddRelationship_ok s ty t u hu]
      refine ⟨HandlesDistinct_append _ _ h1 rfl, ?_⟩
      intro p hp
      rcases StdMap.mem_insert hp with hp | hp
      · exact ⟨s.newNode ty t u, List.mem_append_right _ (List.mem_singleton_self _),
          by rw [hp]; exact relationship?_newNode s ty t u hu⟩
      · obtain ⟨n, hn, hnp⟩ := h2 p hp
        exact ⟨n, List.mem_append_left _ hn, hnp⟩
  | Delete ref =>
    cases ref with
    | idOf k => exact absurd hc (fun hf => hf)
    | targetOf k => exact absurd hc (fun hf => hf)
    | value id =>
      show ((s.DeleteRelationship (.value id)).1).Bound
      cases ha : StdMap.at_ id s.m_relationships with
      | error e => rw [DeleteRelationship_error s id e ha]; exact ⟨h1, h2⟩
      | ok item =>
        rw [DeleteRelationship_ok s id item ha]
        obtain ⟨n0, hn0, hn0p⟩ := h2 (id, item) (StdMap.at_ok_mem id _ item ha)
        have hnode : item.m_relationshipNode = some n0.handle := item_of_relationship? hn0p
        have hdoc : (item.Delete s.m_xmlDocument).2 = s.m_xmlDocument.deleteNode n0.handle := by
          simp [XLRelationshipItem.Delete, hnode]
        rw [hdoc]
        refine ⟨HandlesDistinct_deleteNode _ _ h1, ?_⟩
        intro p hp
        have hpm : p ∈ s.m_relationships := List.mem_of_mem_filter hp
        have hpk : p.1 ≠ id := by
          have := (List.mem_filter.mp hp).2
          simpa using this
        obtain ⟨n, hn, hnp⟩ := h2 p hpm
        refine ⟨n, ?_, hnp⟩
        show n ∈ s.m_xmlDocument.children.filter (fun k => k.handle ≠ n0.handle)
        refine List.mem_filter.mpr ⟨hn, ?_⟩
        have hne : n.handle ≠ n0.handle := by
          intro heq
          have := handle_injective_on h1.1 hn hn0 heq
          rw [this, hn0p] at hnp
          exact hpk (by rw [← Option.some.inj hnp])
        simpa using hne

theorem run_Bound (calls : List Call) :
    ∀ s : XLRelationships, (∀ c ∈ calls, c.Plain) → s.Bound → (run s calls).Bound := by
  induction calls with
  | nil => intro s _ h; exact h
  | cons c cs ih =>
    intro s hc h
    exact ih _ (fun c' hc' => hc c' (List.mem_cons_of_mem _ hc'))
      (step_Bound s c (hc c (List.mem_cons_self _ _)) h)

end XLRelationships

theorem StdMap.mem_insertAll (ps : List (String × XLRelationshipItem)) :
    ∀ (m : StdMap) (q : String × XLRelationshipItem),
      q ∈ StdMap.insertAll ps m → q ∈ ps ∨ q ∈ m := by
  induction ps with
  | nil => intro m q h; exact Or.inr h
  | cons p ps ih =>
    intro m q h
    rw [StdMap.insertAll_cons] at h
    rcases ih _ q h with h | h
    · exact Or.inl (List.mem_cons_of_mem _ h)
    · rcases StdMap.mem_insert h with h | h
      · exact Or.inl (by rw [h]; exact List.mem_cons_self _ _)
      · exact Or.inr h

theorem Load_Bound (tree : XMLDocument) (reg : XLRelationships)
    (hh : tree.HandlesDistinct) (h : XLRelationships.Load tree = .ok reg) : reg.Bound := by
  obtain ⟨ps, hps, hreg⟩ := Load_eq_insertAll tree reg h
  rw [hreg]
  refine ⟨hh, ?_⟩
  intro p hp
  rcases StdMap.mem_insertAll ps [] p hp with hp | hp
  · have : some p ∈ tree.children.map XMLNode.relationship? := by
      rw [hps]; exact List.mem_map_of_mem _ hp
    obtain ⟨n, hn, hnp⟩ := List.mem_map.mp this
    exact ⟨n, hn, hnp⟩
  · simp at hp

/-- Along plain calls (the part of C13 that the code keeps): in every registry state
reached from the `Load` of a tree (of distinct node handles) by `AddRelationship` calls
and `DeleteRelationship` calls on strings of the caller's own, every entry of the index is
bound to a node that is present in the backing tree, the only node with that handle, and
its three fields mirror the node's attributes: the Id attribute equals `Id()`, the
Target attribute equals `Target()`, and the Type attribute resolves, through the
URI-to-type chain, to `Type()`. -/
theorem index_entries_mirror_their_nodes_after_plain_calls (tree : XMLDocument)
    (reg : XLRelationships) (calls : List Call) (hh : tree.HandlesDistinct)
    (h : XLRelationships.Load tree = .ok reg) (hplain : ∀ c ∈ calls, c.Plain) :
    ((run reg calls).m_xmlDocument.children.map XMLNode.handle).Nodup ∧
    ∀ p ∈ (run reg calls).m_relationships,
      ∃ n ∈ (run reg calls).m_xmlDocument.children,
        p.2.m_relationshipNode = some n.handle ∧
        (n.attribute "Id").map XMLAttribute.value = some p.2.Id ∧
        (n.attribute "Target").map XMLAttribute.value = some p.2.Target ∧
        (n.attribute "Type").map (fun a => FromUri a.value) = some p.2.Type_ := by
  obtain ⟨h1, h2⟩ := XLRelationships.run_Bound calls reg hplain (Load_Bound tree reg hh h)
  refine ⟨h1.1, fun p hp => ?_⟩
  obtain ⟨n, hn, hnp⟩ := h2 p hp
  obtain ⟨ty, tg, e1, e2, e3, e4⟩ := relationship?_eq_some hnp
  refine ⟨n, hn, by rw [e4], ?_, ?_, ?_⟩
  · rw [e4]; exact e3
  · rw [e2, e4]; rfl
  · rw [e1, e4]; rfl

set_option maxRecDepth 100000 in
/-- An instance: `sampleTree` after an add, a delete of the first loaded entry and
another add. -/
theorem index_entries_mirror_their_nodes_after_plain_calls_witness :
    sampleTree.HandlesDistinct ∧ XLRelationships.Load sampleTree = .ok sampleRegistry ∧
    (run sampleRegistry
      [.Add .Worksheet "worksheets/sheet1.xml", .Delete (.value "rId1"),
       .Add .ExternalLinkPath "file:///book.xlsx"]).m_relationships.length = 3 ∧
    ∀ p ∈ (run sampleRegistry
        [.Add .Worksheet "worksheets/sheet1.xml", .Delete (.value "rId1"),
         .Add .ExternalLinkPath "file:///book.xlsx"]).m_relationships,
      ∃ n ∈ (run sampleRegistry
          [.Add .Worksheet "worksheets/sheet1.xml", .Delete (.value "rId1"),
           .Add .ExternalLinkPath "file:///book.xlsx"]).m_xmlDocument.children,
        p.2.m_relationshipNode = some n.handle ∧
        (n.attribute "Id").map XMLAttribute.value = some p.2.Id ∧
        (n.attribute "Target").map XMLAttribute.value = some p.2.Target ∧
        (n.attribute "Type").map (fun a => FromUri a.value) = some p.2.Type_ :=
  ⟨⟨by decide, by decide⟩, rfl, by decide,
   (index_entries_mirror_their_nodes_after_plain_calls sampleTree sampleRegistry _
     ⟨by decide, by decide⟩ rfl (by decide)).2⟩

set_option maxRecDepth 100000 in
/-- C13 fails on the code: on the registry loaded from the empty tree (whose handles are
trivially distinct), after two adds and
`DeleteRelationship(RelationshipByID("rId2").Id())`, the index still has an entry under
"rId2"; it is bound to no node, and the node it was bound to (handle 1) is no longer in
the tree, whose only node has the handle 0. -/
theorem aliased_delete_leaves_entry_bound_to_no_node :
    emptyTree.HandlesDistinct ∧ XLRelationships.Load emptyTree = .ok emptyRegistry ∧
    (run emptyRegistry aliasedDeleteCalls).RelationshipByID "rId2" =
      .ok ⟨none, .Unknown, "", ""⟩ ∧
    (run emptyRegistry aliasedDeleteCalls).m_xmlDocument.children.map XMLNode.handle = [0] ∧
    ¬ (∀ p ∈ (run emptyRegistry aliasedDeleteCalls).m_relationships,
        ∃ n ∈ (run emptyRegistry aliasedDeleteCalls).m_xmlDocument.children,
          p.2.m_relationshipNode = some n.handle) := by
  refine ⟨⟨by decide, by decide⟩, rfl, rfl, by decide, by decide⟩

/-! ## The frame of a successful `DeleteRelationship` -/

theorem StdMap.length_erase (id : String) (m : StdMap) (hnd : (StdMap.keys m).Nodup)
    (hid : id ∈ StdMap.keys m) : (StdMap.erase id m).length + 1 = m.length := by
  induction m with
  | nil => simp [StdMap.keys] at hid
  | cons p rest ih =>
    have hnd' : (p.1 :: StdMap.keys rest).Nodup := hnd
    rw [List.nodup_cons] at hnd'
    by_cases hp : p.1 = id
    · rw [StdMap.erase_cons_pos hp]
      have hrest : StdMap.erase id rest = rest := by
        unfold StdMap.erase
        refine List.filter_eq_self.mpr (fun q hq => ?_)
        have : q.1 ≠ id := by
          intro hq'
          exact hnd'.1 (by rw [hp, ← hq']; exact List.mem_map_of_mem _ hq)
        simpa using this
      rw [hrest]; rfl
    · rw [StdMap.erase_cons_neg hp]
      have hid' : id ∈ StdMap.keys rest := by
        rcases List.mem_cons.mp (show id ∈ p.1 :: StdMap.keys rest from hid) with h | h
        · exact absurd h.symm hp
        · exact h
      have := ih hnd'.2 hid'
      simp only [List.length_cons]
      omega

/-- By a string of the caller's own (the part of C20 that the code keeps): the frame of
a successful `DeleteRelationship(id)` on a string that is not a member of an entry, in
every registry state s reached from the `Load` of a tree (of distinct node handles) by
plain calls and for every key id of its index: the call succeeds, the
allocation counter is unchanged, `RelationshipByID` of every other key gives what it
gave before, the index has exactly one entry less, and the tree loses exactly the one
node that the deleted entry was bound to, all other nodes keeping their order. -/
theorem plain_delete_changes_only_its_entry_and_node (tree : XMLDocument)
    (reg s : XLRelationships) (calls : List Call) (id : String)
    (hh : tree.HandlesDistinct) (h : XLRelationships.Load tree = .ok reg)
    (hplain : ∀ c ∈ calls, c.Plain)
    (hs : s = run reg calls) (hid : id ∈ StdMap.keys s.m_relationships) :
    (s.DeleteRelationship (.value id)).2 = .ok () ∧
    (s.DeleteRelationship (.value id)).1.m_relationshipCount = s.m_relationshipCount ∧
    (∀ k, k ≠ id →
      (s.DeleteRelationship (.value id)).1.RelationshipByID k = s.RelationshipByID k) ∧
    (s.DeleteRelationship (.value id)).1.m_relationships.length + 1 =
      s.m_relationships.length ∧
    ∃ (e : XLRelationshipItem) (pre : List XMLNode) (n : XMLNode) (post : List XMLNode),
      s.RelationshipByID id = .ok e ∧ e.m_relationshipNode = some n.handle ∧
      s.m_xmlDocument.children = pre ++ n :: post ∧
      (s.DeleteRelationship (.value id)).1.m_xmlDocument.children = pre ++ post := by
  have hinv := XLRelationships.run_IndexInv calls reg hplain
    (XLRelationships.Load_IndexInv tree reg h)
  have hb := XLRelationships.run_Bound calls reg hplain (Load_Bound tree reg hh h)
  rw [← hs] at hinv hb
  obtain ⟨item, hitem⟩ := StdMap.at_ok_of_mem_keys id s.m_relationships hid
  obtain ⟨n0, hn0, hn0p⟩ := hb.2 (id, item) (StdMap.at_ok_mem id _ item hitem)
  have hnode : item.m_relationshipNode = some n0.handle := item_of_relationship? hn0p
  obtain ⟨pre, post, hsplit⟩ := List.append_of_mem hn0
  rw [XLRelationships.DeleteRelationship_ok s id item hitem]
  refine ⟨rfl, rfl, fun k hk => StdMap.at_erase_of_ne hk _, ?_, item, pre, n0, post, hitem,
    hnode, hsplit, ?_⟩
  · exact StdMap.length_erase id _ (StdMap.sorted_keys_nodup _ hinv.1) hid
  · have hnd := hb.1.1
    rw [hsplit] at hnd
    simp only [XLRelationshipItem.Delete, hnode, XMLDocument.deleteNode, hsplit]
    exact filter_handle_split pre post n0 hnd

set_option maxRecDepth 100000 in
/-- An instance: after an add on `sampleRegistry`, the delete of "rId2" by a string of
the caller's, the entry bound to the second of three nodes. -/
theorem plain_delete_changes_only_its_entry_and_node_witness :
    sampleTree.HandlesDistinct ∧ XLRelationships.Load sampleTree = .ok sampleRegistry ∧
    "rId2" ∈ StdMap.keys
      (run sampleRegistry [.Add .Worksheet "worksheets/sheet1.xml"]).m_relationships ∧
    ((run sampleRegistry
      [.Add .Worksheet "worksheets/sheet1.xml"]).DeleteRelationship
        (.value "rId2")).1.m_relationships.length + 1 = 3 ∧
    ((run sampleRegistry
      [.Add .Worksheet "worksheets/sheet1.xml"]).DeleteRelationship
        (.value "rId2")).1.m_xmlDocument.children.map XMLNode.handle = [0, 2] :=
  ⟨⟨by decide, by decide⟩, rfl, by decide,
   (plain_delete_changes_only_its_entry_and_node sampleTree sampleRegistry _
     [.Add .Worksheet "worksheets/sheet1.xml"] "rId2" ⟨by decide, by decide⟩ rfl
     (by decide) rfl (by decide)).2.2.2.1,
   by decide⟩

set_option maxRecDepth 100000 in
/-- C20 fails on the code: on the registry loaded from the empty tree, after two adds,
"rId2" is a key and `DeleteRelationship(RelationshipByID("rId2").Id())` succeeds and
removes the node, but the index has two entries before and two after: the string `id`
refers to is empty when line 148 erases under it, so the key "rId2" stays, mapped to the
reset entry. -/
theorem aliased_delete_does_not_shrink_the_index :
    XLRelationships.Load emptyTree = .ok emptyRegistry ∧
    "rId2" ∈ StdMap.keys (run emptyRegistry
      [.Add .Worksheet "worksheets/sheet1.xml", .Add .Styles "styles.xml"]).m_relationships ∧
    ((run emptyRegistry
      [.Add .Worksheet "worksheets/sheet1.xml",
       .Add .Styles "styles.xml"]).DeleteRelationship (.idOf "rId2")).2 = .ok () ∧
    (run emptyRegistry
      [.Add .Worksheet "worksheets/sheet1.xml",
       .Add .Styles "styles.xml"]).m_relationships.length = 2 ∧
    ((run emptyRegistry
      [.Add .Worksheet "worksheets/sheet1.xml",
       .Add .Styles "styles.xml"]).DeleteRelationship
        (.idOf "rId2")).1.m_relationships.length = 2 ∧
    ((run emptyRegistry
      [.Add .Worksheet "worksheets/sheet1.xml",
       .Add .Styles "styles.xml"]).DeleteRelationship
        (.idOf "rId2")).1.m_xmlDocument.children.map XMLNode.handle = [0] := by
  refine ⟨rfl, by decide, rfl, by decide, by decide, by decide⟩

/-! ## The index and the tree hold the same relationships -/

theorem StdMap.eq_of_mem_of_key_eq {m : StdMap} (h : (StdMap.keys m).Nodup)
    {p q : String × XLRelationshipItem} (hp : p ∈ m) (hq : q ∈ m) (hk : p.1 = q.1) : p = q :=
  List.inj_on_of_nodup_map h hp hq hk

theorem StdMap.mem_keys_erase {k id : String} {m : StdMap}
    (h : k ∈ StdMap.keys (StdMap.erase id m)) : k ∈ StdMap.keys m := by
  obtain ⟨p, hp, hpk⟩ := List.mem_map.mp h
  exact List.mem_map.mpr ⟨p, List.mem_of_mem_filter hp, hpk⟩

theorem Synced_mem_of_node {s : XLRelationships} (h : s.Synced) {n : XMLNode}
    (hn : n ∈ s.m_xmlDocument.children) :
    ∃ p ∈ s.m_relationships, n.relationship? = some p := by
  have h1 : n.relationship? ∈ s.m_relationships.map some :=
    h.2.2.1.subset (List.mem_map_of_mem _ hn)
  obtain ⟨p, hp, hpn⟩ := List.mem_map.mp h1
  exact ⟨p, hp, hpn.symm⟩

theorem Synced_node_of_mem {s : XLRelationships} (h : s.Synced)
    {p : String × XLRelationshipItem} (hp : p ∈ s.m_relationships) :
    ∃ n ∈ s.m_xmlDocument.children, n.relationship? = some p := by
  have h1 : some p ∈ s.m_xmlDocument.children.map XMLNode.relationship? :=
    h.2.2.1.symm.subset (List.mem_map_of_mem _ hp)
  obtain ⟨n, hn, hnp⟩ := List.mem_map.mp h1
  exact ⟨n, hn, hnp⟩

theorem Synced_Add (s : XLRelationships) (ty : XLRelationshipType) (t u : String)
    (h : s.Synced) (hu : ToUri ty = .ok u) : (s.AddRelationship ty t).1.Synced := by
  obtain ⟨h1, h2, h3, h4⟩ := h
  have hfresh : "rId" ++ to_string (s.m_relationshipCount + 1) ∉
      StdMap.keys s.m_relationships := h4 _ (Nat.lt_succ_self _)
  rw [XLRelationships.AddRelationship_ok s ty t u hu]
  refine ⟨HandlesDistinct_append _ _ h1 rfl, StdMap.sorted_insert _ _ _ h2, ?_, ?_⟩
  · show ((s.m_xmlDocument.children ++ [s.newNode ty t u]).map XMLNode.relationship?).Perm
      ((StdMap.insert_or_assign _ (s.newItem ty t) s.m_relationships).map some)
    rw [List.map_append, List.map_cons, List.map_nil, relationship?_newNode s ty t u hu]
    refine List.Perm.trans ?_ ((StdMap.insert_perm _ _ _ hfresh).map some).symm
    rw [List.map_cons]
    exact (List.perm_append_comm).trans (List.Perm.cons _ h3)
  · intro j hj hmem
    rcases (StdMap.mem_keys_insert _ _ _ _).mp hmem with hmem | hmem
    · have := rId_injective hmem
      have hj' : s.m_relationshipCount + 1 < j := hj
      omega
    · exact h4 j (by have hj' : s.m_relationshipCount + 1 < j := hj; omega) hmem

theorem Synced_Delete (s : XLRelationships) (id : String) (item : XLRelationshipItem)
    (h : s.Synced) (ha : StdMap.at_ id s.m_relationships = .ok item) :
    (s.DeleteRelationship (.value id)).1.Synced := by
  have hs := h
  obtain ⟨h1, h2, h3, h4⟩ := h
  have hmem : (id, item) ∈ s.m_relationships := StdMap.at_ok_mem id _ item ha
  obtain ⟨n0, hn0, hn0p⟩ := Synced_node_of_mem hs hmem
  have hnode : item.m_relationshipNode = some n0.handle := item_of_relationship? hn0p
  have hdoc : (item.Delete s.m_xmlDocument).2 = s.m_xmlDocument.deleteNode n0.handle := by
    simp [XLRelationshipItem.Delete, hnode]
  have hkeys := StdMap.sorted_keys_nodup _ h2
  rw [XLRelationships.DeleteRelationship_ok s id item ha, hdoc]
  refine ⟨HandlesDistinct_deleteNode _ _ h1, StdMap.sorted_erase _ _ h2, ?_,
    fun j hj hk => h4 j hj (StdMap.mem_keys_erase hk)⟩
  show ((s.m_xmlDocument.children.filter (fun k => k.handle ≠ n0.handle)).map
    XMLNode.relationship?).Perm ((StdMap.erase id s.m_relationships).map some)
  have hl : s.m_xmlDocument.children.filter (fun k => k.handle ≠ n0.handle) =
      s.m_xmlDocument.children.filter (keyIsNot id ∘ XMLNode.relationship?) := by
    refine List.filter_congr (fun n hn => ?_)
    obtain ⟨p, hp, hnp⟩ := Synced_mem_of_node hs hn
    by_cases heq : n.handle = n0.handle
    · have hnn : n = n0 := handle_injective_on h1.1 hn hn0 heq
      rw [hnn]
      simp [keyIsNot, hn0p]
    · have hpk : p.1 ≠ id := by
        intro hpk
        have hpe : p = (id, item) := StdMap.eq_of_mem_of_key_eq hkeys hp hmem hpk
        have e1 := item_of_relationship? hnp
        rw [hpe] at e1
        rw [hnode] at e1
        exact heq (Option.some.inj e1).symm
      simp [keyIsNot, hnp, heq, hpk]
  have hr : (StdMap.erase id s.m_relationships).map some =
      (s.m_relationships.map some).filter (keyIsNot id) := by
    rw [List.filter_map]
    rfl
  rw [hl, hr, ← List.filter_map]
  exact h3.filter _

namespace XLRelationships

theorem step_Synced (s : XLRelationships) (c : Call) (hc : c.Plain) (h : s.Synced) :
    (step s c).Synced := by
  cases c with
  | Add ty t =>
    show ((s.AddRelationship ty t).1).Synced
    cases hu : ToUri ty with
    | error e => rw [AddRelationship_error s ty t e hu]; exact h
    | ok u => exact Synced_Add s ty t u h hu
  | Delete ref =>
    cases ref with
    | idOf k => exact absurd hc (fun hf => hf)
    | targetOf k => exact absurd hc (fun hf => hf)
    | value id =>
      show ((s.DeleteRelationship (.value id)).1).Synced
      cases ha : StdMap.at_ id s.m_relationships with
      | error e => rw [DeleteRelationship_error s id e ha]; exact h
      | ok item => exact Synced_Delete s id item h ha

theorem run_Synced (calls : List Call) :
    ∀ s : XLRelationships, (∀ c ∈ calls, c.Plain) → s.Synced → (run s calls).Synced := by
  induction calls with
  | nil => intro s _ h; exact h
  | cons c cs ih =>
    intro s hc h
    exact ih _ (fun c' hc' => hc c' (List.mem_cons_of_mem _ hc'))
      (step_Synced s c (hc c (List.mem_cons_self _ _)) h)

end XLRelationships

theorem StdMap.eq_of_perm_of_sorted {m m' : StdMap} (hp : m.Perm m')
    (h1 : StdMap.Sorted m) (h2 : StdMap.Sorted m') : m = m' := by
  haveI : IsAntisymm (String × XLRelationshipItem)
      (fun p q => StdMap.keyLt p.1 q.1 = true) :=
    ⟨fun _ _ hab hba => absurd rfl (StdMap.keyLt_ne (StdMap.keyLt_trans hab hba))⟩
  exact List.eq_of_perm_of_sorted hp h1 h2

theorem loop_of_relationships (nodes : List XMLNode) :
    ∀ (ps : List (String × XLRelationshipItem)) (m : StdMap),
      nodes.map XMLNode.relationship? = ps.map some →
      XLRelationships.ParseXMLData.loop nodes m = (StdMap.insertAll ps m, .ok ()) := by
  induction nodes with
  | nil =>
    intro ps m h
    cases ps with
    | nil => rfl
    | cons p ps => simp at h
  | cons n rest ih =>
    intro ps m h
    cases ps with
    | nil => simp at h
    | cons p ps =>
      simp only [List.map_cons, List.cons.injEq] at h
      rw [loop_cons_some h.1, ih ps _ h.2, StdMap.insertAll_cons]

theorem Load_of_relationships (tree : XMLDocument) (ps : List (String × XLRelationshipItem))
    (h : tree.children.map XMLNode.relationship? = ps.map some) :
    XLRelationships.Load tree =
      .ok { m_xmlDocument := tree
            m_relationships := StdMap.insertAll ps []
            m_relationshipCount := (StdMap.insertAll ps []).length
            m_savedData := tree.children
            m_isModified := false } := by
  unfold XLRelationships.Load XLRelationships.ParseXMLData
  simp only
  rw [loop_of_relationships tree.children ps [] h]
  rfl

theorem map_some_filterMap_of_perm {α : Type} (l : List (Option α)) (m : List α)
    (h : l.Perm (m.map some)) :
    l = (l.filterMap id).map some ∧ (l.filterMap id).Perm m := by
  constructor
  · have hall : ∀ o ∈ l, ∃ a, o = some a := by
      intro o ho
      obtain ⟨a, _, ha⟩ := List.mem_map.mp (h.subset ho)
      exact ⟨a, ha.symm⟩
    clear h
    induction l with
    | nil => rfl
    | cons o l ih =>
      obtain ⟨a, ha⟩ := hall o (List.mem_cons_self _ _)
      have := ih (fun o' ho' => hall o' (List.mem_cons_of_mem _ ho'))
      rw [ha]
      simp only [List.filterMap_cons, id, List.map_cons]
      rw [← this]
  · have := h.filterMap id
    simpa using this

theorem Synced_ids {s : XLRelationships} (h : s.Synced) :
    (s.m_xmlDocument.children.map XMLNode.idValue).Perm
      ((StdMap.keys s.m_relationships).map some) := by
  have h1 := h.2.2.1.map (Option.map Prod.fst)
  have e1 : (s.m_xmlDocument.children.map XMLNode.relationship?).map (Option.map Prod.fst) =
      s.m_xmlDocument.children.map XMLNode.idValue := by
    rw [List.map_map]
    refine List.map_congr_left (fun n hn => ?_)
    obtain ⟨p, _, hnp⟩ := Synced_mem_of_node h hn
    obtain ⟨_, _, _, _, h3, _⟩ := relationship?_eq_some hnp
    simp [hnp, h3]
  have e2 : (s.m_relationships.map some).map (Option.map Prod.fst) =
      (StdMap.keys s.m_relationships).map some := by
    simp [StdMap.keys]
  rw [e1, e2] at h1
  exact h1

theorem Load_Synced (tree : XMLDocument) (reg : XLRelationships) (n : Nat)
    (hh : tree.HandlesDistinct) (h : XLRelationships.Load tree = .ok reg)
    (hids : (tree.children.map XMLNode.idValue).Perm
      ((List.range n).map (fun i => some ("rId" ++ to_string (i + 1))))) :
    reg.Synced := by
  obtain ⟨ps, hps, hreg⟩ := Load_eq_insertAll tree reg h
  have hidps := ids_of_relationships tree.children ps hps
  have hrange : ((List.range n).map (fun i => some ("rId" ++ to_string (i + 1)))).Nodup := by
    refine List.Nodup.map ?_ (List.nodup_range n)
    intro a b hab
    have := rId_injective (Option.some.inj hab)
    omega
  have hnd : (ps.map Prod.fst).Nodup := by
    have h1 : ((ps.map Prod.fst).map some).Nodup := by
      have : (ps.map Prod.fst).map some = tree.children.map XMLNode.idValue := by
        rw [hidps, List.map_map]; rfl
      rw [this]
      exact hids.nodup_iff.mpr hrange
    exact List.Nodup.of_map _ h1
  have hperm : (StdMap.insertAll ps []).Perm ps := by
    have := StdMap.insertAll_perm ps [] hnd (fun p _ hp => by simp [StdMap.keys] at hp)
    simpa using this
  have hlen : (StdMap.insertAll ps []).length = n := by
    rw [hperm.length_eq]
    have h1 := hids.length_eq
    rw [hidps] at h1
    simpa using h1
  rw [hreg]
  refine ⟨hh, StdMap.sorted_insertAll ps [] List.Pairwise.nil, ?_, ?_⟩
  · show (tree.children.map XMLNode.relationship?).Perm ((StdMap.insertAll ps []).map some)
    rw [hps]
    exact (hperm.map some).symm
  · intro j hj hk
    have hj' : n < j := by
      have : (StdMap.insertAll ps []).length < j := hj
      omega
    have h1 := ((keys_insertAll_dedup tree.children ps hps).2.1 _).mp hk
    obtain ⟨i, hi, hij⟩ := List.mem_map.mp (hids.subset h1)
    have := rId_injective (Option.some.inj hij)
    have := List.mem_range.mp hi
    omega

/-! ## Round trip through the persisted form -/

theorem reload_of_Synced (s : XLRelationships) (h : s.Synced) :
    XLRelationships.Load s.m_xmlDocument =
      .ok { m_xmlDocument := s.m_xmlDocument
            m_relationships := s.m_relationships
            m_relationshipCount := s.m_relationships.length
            m_savedData := s.m_xmlDocument.children
            m_isModified := false } := by
  obtain ⟨e1, hperm⟩ := map_some_filterMap_of_perm _ _ h.2.2.1
  have hnd : (((s.m_xmlDocument.children.map XMLNode.relationship?).filterMap id).map
      Prod.fst).Nodup :=
    (hperm.map Prod.fst).nodup_iff.mpr (StdMap.sorted_keys_nodup _ h.2.1)
  have hins := StdMap.insertAll_perm _ [] hnd (fun p _ hp => by simp [StdMap.keys] at hp)
  rw [List.append_nil] at hins
  have heq : StdMap.insertAll
      ((s.m_xmlDocument.children.map XMLNode.relationship?).filterMap id) [] =
      s.m_relationships :=
    StdMap.eq_of_perm_of_sorted (hins.trans hperm)
      (StdMap.sorted_insertAll _ [] List.Pairwise.nil) h.2.1
  rw [Load_of_relationships s.m_xmlDocument _ e1, heq]

/-- Along plain calls (the part of C12 that the code keeps): round trip through the
persisted form: for every registry state s reached from the registry loaded from an
empty tree by `AddRelationship` calls and `DeleteRelationship` calls on strings of the
caller's own, `Load` on a fresh registry over the backing tree of s returns a registry whose
index is the index of s, so it holds the same (id, type, target) triples, and whose
backing tree is the tree of s unchanged. -/
theorem reload_gives_the_same_index_after_plain_calls (tree : XMLDocument)
    (reg s : XLRelationships) (calls : List Call) (htree : tree.children = [])
    (h : XLRelationships.Load tree = .ok reg) (hplain : ∀ c ∈ calls, c.Plain)
    (hs : s = run reg calls) :
    ∃ reg' : XLRelationships,
      XLRelationships.Load s.m_xmlDocument = .ok reg' ∧
      reg'.m_relationships = s.m_relationships ∧
      reg'.m_relationships.map (fun p => (p.2.Id, p.2.Type_, p.2.Target)) =
        s.m_relationships.map (fun p => (p.2.Id, p.2.Type_, p.2.Target)) ∧
      (∀ id ty t, (∃ p ∈ reg'.m_relationships, p.2.Id = id ∧ p.2.Type_ = ty ∧ p.2.Target = t) ↔
        (∃ p ∈ s.m_relationships, p.2.Id = id ∧ p.2.Type_ = ty ∧ p.2.Target = t)) ∧
      reg'.m_xmlDocument = s.m_xmlDocument := by
  have hh : tree.HandlesDistinct := by
    constructor
    · rw [htree]; exact List.nodup_nil
    · intro n hn; rw [htree] at hn; simp at hn
  have hsync : s.Synced := by
    rw [hs]
    refine XLRelationships.run_Synced calls reg hplain (Load_Synced tree reg 0 hh h ?_)
    rw [htree]; exact List.Perm.refl _
  exact ⟨_, reload_of_Synced s hsync, rfl, rfl, fun _ _ _ => Iff.rfl, rfl⟩

set_option maxRecDepth 100000 in
/-- An instance: from the registry loaded from `emptyTree`, after three adds and the
delete of the second entry by a string of the caller's, a reload finds the entries
"rId1" and "rId3". -/
theorem reload_gives_the_same_index_after_plain_calls_witness :
    emptyTree.children = [] ∧ XLRelationships.Load emptyTree = .ok emptyRegistry ∧
    ∃ reg' : XLRelationships,
      XLRelationships.Load (run emptyRegistry
        [.Add .Worksheet "worksheets/sheet1.xml", .Add .Styles "styles.xml",
         .Add .ExternalLinkPath "file:///book.xlsx", .Delete (.value "rId2")]).m_xmlDocument
        = .ok reg' ∧
      reg'.m_relationships.map (fun p => (p.2.Id, p.2.Type_, p.2.Target)) =
        [("rId1", XLRelationshipType.Worksheet, "worksheets/sheet1.xml"),
         ("rId3", XLRelationshipType.ExternalLinkPath, "file:///book.xlsx")] :=
  ⟨rfl, rfl,
   (reload_gives_the_same_index_after_plain_calls emptyTree emptyRegistry _
     [.Add .Worksheet "worksheets/sheet1.xml", .Add .Styles "styles.xml",
      .Add .ExternalLinkPath "file:///book.xlsx", .Delete (.value "rId2")] rfl rfl
     (by decide) rfl).elim
     (fun reg' hr => ⟨reg', hr.1, by rw [hr.2.2.1]; decide⟩)⟩

set_option maxRecDepth 100000 in
/-- C12 fails on the code: on the registry loaded from the empty tree, after two adds
and `DeleteRelationship(RelationshipByID("rId2").Id())`, the index holds the triples
("rId1", Worksheet, "worksheets/sheet1.xml") and ("", Unknown, ""), the second being the
reset entry that line 148 did not erase; the tree holds the node "rId1" only, so `Load`
over it returns an index with the first triple only. -/
theorem reload_after_aliased_delete_gives_another_index :
    emptyTree.children = [] ∧ XLRelationships.Load emptyTree = .ok emptyRegistry ∧
    (run emptyRegistry aliasedDeleteCalls).m_relationships.map
      (fun p => (p.2.Id, p.2.Type_, p.2.Target)) =
      [("rId1", XLRelationshipType.Worksheet, "worksheets/sheet1.xml"),
       ("", XLRelationshipType.Unknown, "")] ∧
    ∃ reg' : XLRelationships,
      XLRelationships.Load (run emptyRegistry aliasedDeleteCalls).m_xmlDocument = .ok reg' ∧
      reg'.m_relationships.map (fun p => (p.2.Id, p.2.Type_, p.2.Target)) =
        [("rId1", XLRelationshipType.Worksheet, "worksheets/sheet1.xml")] ∧
      reg'.m_relationships ≠ (run emptyRegistry aliasedDeleteCalls).m_relationships := by
  refine ⟨rfl, rfl, by decide, _, rfl, by decide, by decide⟩

/-! ## Freshness of allocated ids under contiguous ids -/

/-- Along plain calls (the part of C19 that the code keeps): if the loaded backing tree
(of distinct node handles) has n top-level nodes whose Id attributes are
"rId1" ... "rIdn", each once and in any document order, then in every state s reached by
`AddRelationship` calls and `DeleteRelationship` calls on strings of the caller's own,
each successful
`AddRelationship` returns an id that, before the call, is neither a key of the index nor
the Id attribute of a node of the tree; the nodes of the tree have pairwise-distinct Id
attributes, which are exactly the keys of the index, and the index and the tree hold the
same number of relationships. -/
theorem adds_are_fresh_after_contiguous_load_and_plain_calls (tree : XMLDocument)
    (reg s : XLRelationships) (calls : List Call) (n : Nat)
    (hh : tree.HandlesDistinct) (h : XLRelationships.Load tree = .ok reg)
    (hids : (tree.children.map XMLNode.idValue).Perm
      ((List.range n).map (fun i => some ("rId" ++ to_string (i + 1)))))
    (hplain : ∀ c ∈ calls, c.Plain) (hs : s = run reg calls) :
    (∀ ty t e, (s.AddRelationship ty t).2 = .ok e →
      e.Id ∉ StdMap.keys s.m_relationships ∧
      ∀ k ∈ s.m_xmlDocument.children, k.idValue ≠ some e.Id) ∧
    (s.m_xmlDocument.children.map XMLNode.idValue).Nodup ∧
    (s.m_xmlDocument.children.map XMLNode.idValue).Perm
      ((StdMap.keys s.m_relationships).map some) ∧
    s.m_relationships.length = s.m_xmlDocument.children.length := by
  have hsync : s.Synced := by
    rw [hs]
    exact XLRelationships.run_Synced calls reg hplain (Load_Synced tree reg n hh h hids)
  have hidp := Synced_ids hsync
  have hknd : ((StdMap.keys s.m_relationships).map some).Nodup :=
    (List.nodup_map_iff (Option.some_injective _)).mpr
      (StdMap.sorted_keys_nodup _ hsync.2.1)
  refine ⟨?_, hidp.nodup_iff.mpr hknd, hidp, ?_⟩
  · intro ty t e he
    cases hu : ToUri ty with
    | error err =>
      rw [XLRelationships.AddRelationship_error s ty t err hu] at he
      cases he
    | ok u =>
      rw [XLRelationships.AddRelationship_ok s ty t u hu] at he
      injection he with he
      have hid : e.Id = "rId" ++ to_string (s.m_relationshipCount + 1) := by
        rw [← he]; rfl
      have hfresh : e.Id ∉ StdMap.keys s.m_relationships := by
        rw [hid]; exact hsync.2.2.2 _ (Nat.lt_succ_self _)
      refine ⟨hfresh, fun k hk hkid => hfresh ?_⟩
      have h1 : some e.Id ∈ (StdMap.keys s.m_relationships).map some :=
        hidp.subset (by rw [← hkid]; exact List.mem_map_of_mem _ hk)
      obtain ⟨k', hk', hke⟩ := List.mem_map.mp h1
      rw [← Option.some.inj hke]; exact hk'
  · have := hsync.2.2.1.length_eq
    simpa using this.symm

set_option maxRecDepth 100000 in
/-- An instance on `sampleTree`, whose ids are "rId1" and "rId2": after an add and the
delete of "rId1" by a string of the caller's, the next add returns "rId4", which is
neither a key nor the id of a node. -/
theorem adds_are_fresh_after_contiguous_load_and_plain_calls_witness :
    sampleTree.HandlesDistinct ∧ XLRelationships.Load sampleTree = .ok sampleRegistry ∧
    (sampleTree.children.map XMLNode.idValue).Perm
      ((List.range 2).map (fun i => some ("rId" ++ to_string (i + 1)))) ∧
    ((run sampleRegistry
      [.Add .Worksheet "worksheets/sheet1.xml", .Delete (.value "rId1")]).AddRelationship
        .Theme "theme/theme1.xml").2 =
      .ok ⟨some 3, .Theme, "theme/theme1.xml", "rId4"⟩ ∧
    "rId4" ∉ StdMap.keys (run sampleRegistry
      [.Add .Worksheet "worksheets/sheet1.xml", .Delete (.value "rId1")]).m_relationships ∧
    (∀ k ∈ (run sampleRegistry
      [.Add .Worksheet "worksheets/sheet1.xml",
       .Delete (.value "rId1")]).m_xmlDocument.children,
      k.idValue ≠ some "rId4") :=
  ⟨⟨by decide, by decide⟩, rfl, by decide, rfl,
   (adds_are_fresh_after_contiguous_load_and_plain_calls sampleTree sampleRegistry _
     [.Add .Worksheet "worksheets/sheet1.xml", .Delete (.value "rId1")] 2
     ⟨by decide, by decide⟩ rfl (by decide) (by decide) rfl).1 .Theme "theme/theme1.xml"
     ⟨some 3, .Theme, "theme/theme1.xml", "rId4"⟩ rfl⟩

set_option maxRecDepth 100000 in
/-- C19 fails on the code: the empty tree has the ids "rId1" ... "rIdn" for n = 0; after
two adds and `DeleteRelationship(RelationshipByID("rId2").Id())` the tree holds one
relationship and the index two, the second being the reset entry that line 148 did not
erase: the index and the tree do not hold the same number of relationships. -/
theorem index_and_tree_sizes_differ_after_aliased_delete :
    emptyTree.HandlesDistinct ∧ XLRelationships.Load emptyTree = .ok emptyRegistry ∧
    (emptyTree.children.map XMLNode.idValue).Perm
      ((List.range 0).map (fun i => some ("rId" ++ to_string (i + 1)))) ∧
    (run emptyRegistry aliasedDeleteCalls).m_relationships.length = 2 ∧
    (run emptyRegistry aliasedDeleteCalls).m_xmlDocument.children.length = 1 ∧
    (run emptyRegistry aliasedDeleteCalls).m_relationships.length ≠
      (run emptyRegistry aliasedDeleteCalls).m_xmlDocument.children.length := by
  refine ⟨⟨by decide, by decide⟩, rfl, by decide, by decide, by decide, by decide⟩

/-! ## What every call keeps, an aliased `DeleteRelationship` included -/

theorem StdMap.keys_assign (k : String) (x : XLRelationshipItem) (m : StdMap) :
    StdMap.keys (StdMap.assign k x m) = StdMap.keys m := by
  induction m with
  | nil => rfl
  | cons p rest ih =>
    unfold StdMap.assign
    by_cases h1 : p.1 = k
    · rw [if_pos h1]; rfl
    · rw [if_neg h1]
      show p.1 :: StdMap.keys (StdMap.assign k x rest) = p.1 :: StdMap.keys rest
      rw [ih]

theorem StdMap.sorted_iff_keys (m : StdMap) :
    StdMap.Sorted m ↔ (StdMap.keys m).Pairwise (fun a b => StdMap.keyLt a b = true) := by
  unfold StdMap.Sorted StdMap.keys
  rw [List.pairwise_map]

theorem StdMap.sorted_assign (k : String) (x : XLRelationshipItem) (m : StdMap)
    (h : StdMap.Sorted m) : StdMap.Sorted (StdMap.assign k x m) := by
  rw [StdMap.sorted_iff_keys] at h ⊢
  rw [StdMap.keys_assign]
  exact h

theorem StdMap.mem_assign {k : String} {x : XLRelationshipItem} {m : StdMap}
    {q : String × XLRelationshipItem} (h : q ∈ StdMap.assign k x m) : q ∈ m ∨ q.2 = x := by
  induction m with
  | nil => simp [StdMap.assign] at h
  | cons p rest ih =>
    unfold StdMap.assign at h
    by_cases h1 : p.1 = k
    · rw [if_pos h1, List.mem_cons] at h
      rcases h with h | h
      · right; rw [h]
      · left; exact List.mem_cons_of_mem _ h
    · rw [if_neg h1, List.mem_cons] at h
      rcases h with h | h
      · left; rw [h]; exact List.mem_cons_self _ _
      · rcases ih h with h | h
        · left; exact List.mem_cons_of_mem _ h
        · right; exact h

namespace XLRelationships

theorem step_LiveInv (s : XLRelationships) (c : Call) (h : s.LiveInv) :
    (step s c).LiveInv := by
  obtain ⟨h1, h2⟩ := h
  cases c with
  | Add ty t =>
    show ((s.AddRelationship ty t).1).LiveInv
    cases hu : ToUri ty with
    | error e => rw [AddRelationship_error s ty t e hu]; exact ⟨h1, h2⟩
    | ok u =>
      rw [AddRelationship_ok s ty t u hu]
      refine ⟨StdMap.sorted_insert _ _ _ h1, ?_⟩
      intro p hp hlive
      rcases StdMap.mem_insert hp with hp | hp
      · rw [hp]; rfl
      · exact h2 p hp hlive
  | Delete ref =>
    show ((s.DeleteRelationship ref).1).LiveInv
    cases hv : ref.read s.m_relationships with
    | none => rw [DeleteRelationship_dangling s ref hv]; exact ⟨h1, h2⟩
    | some v =>
      cases ha : StdMap.at_ v s.m_relationships with
      | error e => rw [DeleteRelationship_ref_error s ref v e hv ha]; exact ⟨h1, h2⟩
      | ok item =>
        obtain ⟨v', _, heq⟩ := DeleteRelationship_ref_ok s ref v item hv ha
        rw [heq]
        refine ⟨StdMap.sorted_erase _ _ (StdMap.sorted_assign _ _ _ h1), ?_⟩
        intro p hp hlive
        rcases StdMap.mem_assign (List.mem_of_mem_filter hp) with hp | hp
        · exact h2 p hp hlive
        · rw [hp] at hlive; exact absurd rfl hlive

theorem run_LiveInv (calls : List Call) :
    ∀ s : XLRelationships, s.LiveInv → (run s calls).LiveInv := by
  induction calls with
  | nil => intro s h; exact h
  | cons c cs ih => intro s h; exact ih _ (step_LiveInv s c h)

end XLRelationships

/-- Along all calls, an aliased `DeleteRelationship` included: starting from the
registry that `Load` produces from any backing tree, after every finite sequence of
calls every key under which a Live entry is stored equals the `Id()` of that entry, and
the Live entries of the index have pairwise-distinct ids. -/
theorem live_entries_have_distinct_ids_after_any_calls (tree : XMLDocument)
    (reg : XLRelationships) (calls : List Call) (h : XLRelationships.Load tree = .ok reg) :
    (∀ p ∈ (run reg calls).m_relationships, p.2.m_relationshipNode ≠ none → p.1 = p.2.Id) ∧
    (((run reg calls).m_relationships.filter
      (fun p => p.2.m_relationshipNode.isSome)).map (fun p => p.2.Id)).Nodup := by
  have hload := XLRelationships.Load_IndexInv tree reg h
  obtain ⟨h1, h2⟩ := XLRelationships.run_LiveInv calls reg
    ⟨hload.1, fun p hp _ => hload.2.1 p hp⟩
  refine ⟨h2, ?_⟩
  have hk : (StdMap.keys ((run reg calls).m_relationships.filter
      (fun p => p.2.m_relationshipNode.isSome))).Nodup :=
    List.Nodup.sublist ((List.filter_sublist _).map _) (StdMap.sorted_keys_nodup _ h1)
  have he : ((run reg calls).m_relationships.filter
      (fun p => p.2.m_relationshipNode.isSome)).map (fun p => p.2.Id) =
      StdMap.keys ((run reg calls).m_relationships.filter
        (fun p => p.2.m_relationshipNode.isSome)) := by
    unfold StdMap.keys
    refine List.map_congr_left (fun p hp => ?_)
    obtain ⟨hp1, hp2⟩ := List.mem_filter.mp hp
    refine (h2 p hp1 ?_).symm
    intro hn
    rw [hn] at hp2
    cases hp2
  rw [he]; exact hk

end OpenXLSX
